import Mathlib

/-!
Verification of the hiero-solo-action orchestrator (src/index.ts, src/post.ts).

The two entry points are embedded shallowly as computations in a monad `M`
over an explicit `World` (the CI platform's inputs, the exit status and
captured stdout of each external command, and the contents of files read
back).  Every observable effect (subprocess invocation, detached spawn,
state persistence, output emission, log lines, job failure) is recorded in
an event trace, so the specification's claims about invocation sequences,
persisted state and emitted outputs become statements about traces.

The account-JSON extraction regex of `extractAccountAsJson` is embedded as
an executable backtracking matcher with JavaScript semantics for this
pattern class (greedy and lazy character-class stars, leftmost match).
-/

namespace SoloAction

/-- An observable effect of the orchestrator, in emission order.
`execEv` is an awaited subprocess run through `@actions/exec` (the command
line as passed, plus the argument vector); `spawnEv` a detached
fire-and-forget child process; the rest are the CI platform primitives
`saveState`, `setOutput`, `info`, `warning`, `setFailed`. -/
inductive Event where
  | execEv (cmd : String) (args : List String)
  | spawnEv (cmd : String) (args : List String)
  | saveStateEv (key value : String)
  | setOutputEv (key value : String)
  | infoEv (msg : String)
  | warningEv (msg : String)
  | setFailedEv (msg : String)
deriving DecidableEq, Repr

/-- Outcome of one awaited subprocess: `@actions/exec` with default options
resolves (with exit code 0, yielding the captured stdout) or rejects with an
error message on non-zero exit or spawn failure. -/
inductive ExecRes where
  | ok (stdout : String)
  | err (msg : String)
deriving DecidableEq, Repr

/-- The environment a run interacts with: the action's inputs (`getInput`),
the outcome of the i-th awaited subprocess invocation, and the contents of
files read with `readFileSync` (`none` models a read error). -/
structure World where
  inputs : String → String
  exec : Nat → String → List String → ExecRes
  fileContents : String → Option String

/-- The effect monad of the embedding: a computation takes the world and the
number of subprocess invocations so far, and returns a result (`Except`
models a thrown JavaScript `Error` carrying its message), the updated
invocation count, and the list of events it emitted. -/
def M (α : Type) : Type :=
  World → Nat → Except String α × Nat × List Event

/-- Monadic return: no effects. -/
def M.pure (a : α) : M α := fun _ n => (Except.ok a, n, [])

/-- Monadic bind: sequence two computations, concatenating their traces;
an error short-circuits, as a thrown exception does. -/
def M.bind (x : M α) (f : α → M β) : M β := fun w n =>
  match x w n with
  | (Except.ok a, n1, t) =>
    match f a w n1 with
    | (r, n2, t2) => (r, n2, t ++ t2)
  | (Except.error e, n1, t) => (Except.error e, n1, t)

instance : Monad M where
  pure := M.pure
  bind := M.bind

/-- Embedding of a try/catch block: run `x`; if it throws, run the handler
on the error message, keeping the events `x` emitted before throwing. -/
def tryCatchM (x : M α) (h : String → M α) : M α := fun w n =>
  match x w n with
  | (Except.ok a, n1, t) => (Except.ok a, n1, t)
  | (Except.error e, n1, t) =>
    match h e w n1 with
    | (r, n2, t2) => (r, n2, t ++ t2)

/-- Throwing a JavaScript `Error` with the given message. -/
def throwM (msg : String) : M α := fun _ n => (Except.error msg, n, [])

/-- Record one event. -/
def emit (e : Event) : M Unit := fun _ n => (Except.ok (), n, [e])

/-- Model of `safeGetInput` from index.ts: reads an input from the CI
platform (total, no effects; the TypeScript wrapper returns "" on an
exception from `getInput`). -/
def safeGetInput (name : String) : M String := fun w n =>
  (Except.ok (w.inputs name), n, [])

/-- Model of `info` / `safeInfo`: log an informational line. -/
def safeInfo (msg : String) : M Unit := emit (Event.infoEv msg)

/-- Model of `setOutput` / `safeSetOutput`: publish a named output. -/
def safeSetOutput (name value : String) : M Unit :=
  emit (Event.setOutputEv name value)

/-- Model of the raw `exec` of `@actions/exec`: records the invocation,
consumes one invocation index, returns the captured stdout on success and
throws the world's error message on failure. -/
def execM (cmd : String) (args : List String) : M String := fun w n =>
  match w.exec n cmd args with
  | ExecRes.ok out => (Except.ok out, n + 1, [Event.execEv cmd args])
  | ExecRes.err m => (Except.error m, n + 1, [Event.execEv cmd args])

/-- The wrapped error message `safeExec` rethrows on a failed command:
`Command failed: <command> <args joined by spaces> - <message>`. -/
def cmdFailedMsg (cmd : String) (args : List String) (m : String) : String :=
  "Command failed: " ++ cmd ++ " " ++ String.intercalate " " args ++ " - " ++ m

/-- Model of `safeExec` from index.ts: run the command, return its exit code
(necessarily 0, since `exec` throws on non-zero exit), wrapping any error
in a `Command failed: ...` message. -/
def safeExec (cmd : String) (args : List String) : M Nat :=
  tryCatchM (M.bind (execM cmd args) (fun _ => M.pure 0))
    (fun m => throwM (cmdFailedMsg cmd args m))

/-- Model of `safeExec` invoked with a stdout listener (used for the
private-key pipeline): same as `safeExec` but also yields the stdout the
listener accumulated. -/
def safeExecCapture (cmd : String) (args : List String) : M (Nat × String) :=
  tryCatchM (M.bind (execM cmd args) (fun out => M.pure (0, out)))
    (fun m => throwM (cmdFailedMsg cmd args m))

/-- Model of `safeReadFileSync`: yields the file's contents, or throws
`Failed to read file <path>: <message>` when the world has no such file
(the underlying I/O error message is modelled as `ENOENT`). -/
def readFileM (path : String) : M String := fun w n =>
  match w.fileContents path with
  | some c => (Except.ok c, n, [])
  | none => (Except.error ("Failed to read file " ++ path ++ ": ENOENT"), n, [])

end SoloAction

namespace SoloAction

/-! ### The account-JSON regex of `extractAccountAsJson`

index.ts matches stdout against the JavaScript regex (dotAll flag `s`)
whose literal source between slashes is, with every brace escaped here as
x7b / x7d: `\x7b\s*"accountId":\s*".*?",\s*"publicKey":\s*".*?",\s*"balance":\s*\d+\s*\x7d`.
The pattern is a plain concatenation of literals, greedy whitespace
stars `\s*`, lazy dot stars `.*?` and a greedy digit plus `\d+`, so it is
embedded as a token list with a backtracking matcher that enumerates
greedy repetitions longest-first and lazy repetitions shortest-first,
exactly the order of the JavaScript engine for this pattern class. -/

/-- One regex token of the pattern class used by index.ts: a literal
character sequence, a greedy star over a character class, a lazy star over
a character class, or a greedy plus over a character class. -/
inductive Tok where
  | lit (l : List Char)
  | starG (p : Char → Bool)
  | starL (p : Char → Bool)
  | plusG (p : Char → Bool)

/-- The character class of JavaScript `\s`. -/
def isJsWhitespace (c : Char) : Bool :=
  c = ' ' || c = '\t' || c = '\n' || c = '\x0b' || c = '\x0c' || c = '\r' ||
  c = '\u00A0' || c = '\u1680' || ('\u2000' ≤ c && c ≤ '\u200A') ||
  c = '\u2028' || c = '\u2029' || c = '\u202F' || c = '\u205F' ||
  c = '\u3000' || c = '\uFEFF'

/-- Length of the longest prefix whose characters all satisfy `p`: the
maximal number of repetitions a star or plus over class `p` can consume. -/
def countLeading (p : Char → Bool) : List Char → Nat
  | [] => 0
  | c :: t => if p c then countLeading p t + 1 else 0

/-- The repetition counts a greedy quantifier tries, longest first. -/
def descRange (m : Nat) : List Nat := (List.range (m + 1)).reverse

/-- First successful result of `f` over the candidate list, in order: the
backtracking search over a quantifier's repetition counts. -/
def firstSome (f : α → Option β) : List α → Option β
  | [] => none
  | a :: t =>
    match f a with
    | some b => some b
    | none => firstSome f t

/-- Match a token list against (a suffix of) the subject at its start,
returning the consumed characters and the remainder, with JavaScript
backtracking order: greedy quantifiers longest-first, lazy shortest-first,
first full completion wins. -/
def matchToks : List Tok → List Char → Option (List Char × List Char)
  | [], s => some ([], s)
  | Tok.lit l :: ts, s =>
    if l.isPrefixOf s then
      (matchToks ts (s.drop l.length)).map (fun q => (l ++ q.1, q.2))
    else none
  | Tok.starG p :: ts, s =>
    firstSome
      (fun k => (matchToks ts (s.drop k)).map (fun q => (s.take k ++ q.1, q.2)))
      (descRange (countLeading p s))
  | Tok.starL p :: ts, s =>
    firstSome
      (fun k => (matchToks ts (s.drop k)).map (fun q => (s.take k ++ q.1, q.2)))
      (List.range (countLeading p s + 1))
  | Tok.plusG p :: ts, s =>
    firstSome
      (fun k => (matchToks ts (s.drop k)).map (fun q => (s.take k ++ q.1, q.2)))
      ((descRange (countLeading p s)).filter (fun k => k != 0))

/-- Leftmost match: try `matchToks` at position 0, then 1, ...; returns the
start index, the consumed characters and the remainder — the semantics of
JavaScript `String.prototype.match` without the `g` flag. -/
def searchFrom (toks : List Tok) : List Char → Option (Nat × List Char × List Char)
  | [] =>
    match matchToks toks [] with
    | some q => some (0, q.1, q.2)
    | none => none
  | c :: t =>
    match matchToks toks (c :: t) with
    | some q => some (0, q.1, q.2)
    | none => (searchFrom toks t).map (fun q => (q.1 + 1, q.2.1, q.2.2))

/-- The token form of index.ts's `jsonRegex` (see the section comment):
note that each key's closing quote is immediately followed by the colon
with no whitespace allowed before it, each value is matched by a lazy
dotAll `.*?` (so it may span newlines and even contain quote characters),
and each value's closing quote is immediately followed by the comma. -/
def accountJsonToks : List Tok :=
  [Tok.lit ['\x7b'], Tok.starG isJsWhitespace,
   Tok.lit ("\"accountId\":".data), Tok.starG isJsWhitespace,
   Tok.lit ['"'], Tok.starL (fun _ => true), Tok.lit ("\",".data),
   Tok.starG isJsWhitespace,
   Tok.lit ("\"publicKey\":".data), Tok.starG isJsWhitespace,
   Tok.lit ['"'], Tok.starL (fun _ => true), Tok.lit ("\",".data),
   Tok.starG isJsWhitespace,
   Tok.lit ("\"balance\":".data), Tok.starG isJsWhitespace,
   Tok.plusG Char.isDigit, Tok.starG isJsWhitespace, Tok.lit ['\x7d']]

/-- Model of `extractAccountAsJson` from index.ts: return the first
substring of the input matching `jsonRegex`, or throw
`No JSON block found in output`. -/
def extractAccountAsJson (inputText : String) : Except String String :=
  match searchFrom accountJsonToks inputText.data with
  | some q => Except.ok (String.mk q.2.1)
  | none => Except.error "No JSON block found in output"

end SoloAction

namespace SoloAction

/-! ### Model of `JSON.parse` on the extracted account object

index.ts feeds the matched substring to `JSON.parse` and reads the
`accountId`, `publicKey` and `balance` fields.  The matched substring is
constrained by the regex to the shape `\x7b ws "accountId": ws "…", ws
"publicKey": ws "…", ws "balance": ws digits ws \x7d`, so the model below
parses exactly that shape with full JSON string-literal decoding (escapes,
control-character rejection) and JSON number rules (no leading zeros).
`none` models a `SyntaxError` thrown by `JSON.parse`.  One deliberate
deviation: `JSON.parse` accepts `\uXXXX` escapes that denote lone UTF-16
surrogates, which a Lean `String` cannot represent, so those are rejected
here; no other divergence on this shape is known. -/

/-- The JSON (RFC 8259) whitespace characters accepted by `JSON.parse`
between tokens. -/
def isJsonWs (c : Char) : Bool :=
  c = ' ' || c = '\t' || c = '\n' || c = '\r'

/-- Drop leading JSON whitespace. -/
def skipJsonWs : List Char -> List Char
  | [] => []
  | c :: t => if isJsonWs c then skipJsonWs t else c :: t

/-- Consume an expected literal token, or fail. -/
def expectLit (lit l : List Char) : Option (List Char) :=
  if lit.isPrefixOf l then some (l.drop lit.length) else none

/-- Value of one hexadecimal digit. -/
def hexVal (c : Char) : Option Nat :=
  if '0' <= c && c <= '9' then some (c.toNat - '0'.toNat)
  else if 'a' <= c && c <= 'f' then some (c.toNat - 'a'.toNat + 10)
  else if 'A' <= c && c <= 'F' then some (c.toNat - 'A'.toNat + 10)
  else none

/-- Decode the body of a JSON string literal (the opening quote already
consumed) up to its closing quote: handles the escapes `\" \\ \/ \b \f
\n \r \t \uXXXX`, rejects raw control characters and invalid escapes, as
`JSON.parse` does; yields the decoded characters and the rest of the input
after the closing quote. -/
def decodeJsonString : List Char -> Option (List Char × List Char)
  | [] => none
  | c :: t =>
    if c = '"' then some ([], t)
    else if c = '\\' then
      match t with
      | [] => none
      | e :: t2 =>
        if e = '"' then (decodeJsonString t2).map (fun q => ('"' :: q.1, q.2))
        else if e = '\\' then (decodeJsonString t2).map (fun q => ('\\' :: q.1, q.2))
        else if e = '/' then (decodeJsonString t2).map (fun q => ('/' :: q.1, q.2))
        else if e = 'b' then (decodeJsonString t2).map (fun q => ('\x08' :: q.1, q.2))
        else if e = 'f' then (decodeJsonString t2).map (fun q => ('\x0c' :: q.1, q.2))
        else if e = 'n' then (decodeJsonString t2).map (fun q => ('\n' :: q.1, q.2))
        else if e = 'r' then (decodeJsonString t2).map (fun q => ('\r' :: q.1, q.2))
        else if e = 't' then (decodeJsonString t2).map (fun q => ('\t' :: q.1, q.2))
        else if e = 'u' then
          match t2 with
          | h1 :: h2 :: h3 :: h4 :: t3 =>
            match hexVal h1, hexVal h2, hexVal h3, hexVal h4 with
            | some v1, some v2, some v3, some v4 =>
              let code := ((v1 * 16 + v2) * 16 + v3) * 16 + v4
              if 0xD800 <= code && code < 0xE000 then none
              else (decodeJsonString t3).map (fun q => (Char.ofNat code :: q.1, q.2))
            | _, _, _, _ => none
          | _ => none
        else none
    else if c.toNat < 0x20 then none
    else (decodeJsonString t).map (fun q => (c :: q.1, q.2))

/-- Numeric value of a digit list (most significant first). -/
def digitsToNat (l : List Char) : Nat :=
  l.foldl (fun acc c => acc * 10 + (c.toNat - '0'.toNat)) 0

/-- Parse a decoded string field value up to the separator, then the rest:
helper consuming `ws "<key>" ws : ws " body " `. -/
def parseKeyString (key : String) (l : List Char) : Option (List Char × List Char) := do
  let l ← expectLit ('"' :: key.data ++ ['"']) (skipJsonWs l)
  let l ← expectLit [':'] (skipJsonWs l)
  let l ← expectLit ['"'] (skipJsonWs l)
  decodeJsonString l

/-- Model of `JSON.parse(accountJson)` followed by reading `accountId`,
`publicKey` and `balance`: parses the exact object shape the regex
guarantees (the three keys in that order) and yields the decoded field
values, or `none` for a `SyntaxError`. -/
def parseAccountJson (s : String) : Option (String × String × Nat) := do
  let l0 ← expectLit ['\x7b'] (skipJsonWs s.data)
  let (accountId, l1) ← parseKeyString "accountId" l0
  let l2 ← expectLit [','] (skipJsonWs l1)
  let (publicKey, l3) ← parseKeyString "publicKey" l2
  let l4 ← expectLit [','] (skipJsonWs l3)
  let l5 ← expectLit ('"' :: "balance".data ++ ['"']) (skipJsonWs l4)
  let l6 ← expectLit [':'] (skipJsonWs l5)
  let l7 := skipJsonWs l6
  let ndig := countLeading Char.isDigit l7
  if ndig = 0 then none
  else if 1 < ndig && l7.head? = some '0' then none
  else do
    let bal := digitsToNat (l7.take ndig)
    let l8 ← expectLit ['\x7d'] (skipJsonWs (l7.drop ndig))
    if skipJsonWs l8 = [] then
      some (String.mk accountId, String.mk publicKey, bal)
    else none

end SoloAction

namespace SoloAction

/-! ### The provisioning pipeline (index.ts) -/

/-- Model of `createKindCluster`: `kind create cluster -n <clusterName>`. -/
def createKindCluster (clusterName : String) : M Unit := do
  let _ ← safeExec "kind" ["create", "cluster", "-n", clusterName]
  pure ()

/-- Model of `initializeSolo`: `solo init`. -/
def initSolo : M Unit := do
  let _ ← safeExec "solo" ["init"]
  pure ()

/-- Model of `connectSoloToCluster`. -/
def connectSoloToCluster (clusterName : String) : M Unit := do
  let _ ← safeExec "solo" ["cluster-ref", "connect", "--cluster-ref",
    "kind-" ++ clusterName, "--context", "kind-" ++ clusterName]
  pure ()

/-- Model of `createSoloDeployment`. -/
def createSoloDeployment (namespaceName deployment : String) : M Unit := do
  let _ ← safeExec "solo" ["deployment", "create", "-n", namespaceName,
    "--deployment", deployment]
  pure ()

/-- Model of `addClusterToDeployment`. -/
def addClusterToDeployment (deployment clusterName : String) : M Unit := do
  let _ ← safeExec "solo" ["deployment", "add-cluster", "--deployment", deployment,
    "--cluster-ref", "kind-" ++ clusterName, "--num-consensus-nodes", "1"]
  pure ()

/-- Model of `generateNodeKeys`. -/
def generateNodeKeys (deployment : String) : M Unit := do
  let _ ← safeExec "solo" ["node", "keys", "--gossip-keys", "--tls-keys",
    "-i", "node1", "--deployment", deployment]
  pure ()

/-- Model of `setupSoloCluster`. -/
def setupSoloCluster (clusterName : String) : M Unit := do
  let _ ← safeExec "solo" ["cluster-ref", "setup", "-s", clusterName]
  pure ()

/-- Model of `deployNetwork`. -/
def deployNetwork (deployment : String) : M Unit := do
  let _ ← safeExec "solo" ["network", "deploy", "-i", "node1",
    "--deployment", deployment]
  pure ()

/-- Model of `setupNode`. -/
def setupNode (deployment hieroVersion : String) : M Unit := do
  let _ ← safeExec "solo" ["node", "setup", "-i", "node1", "--deployment",
    deployment, "-t", hieroVersion, "--quiet-mode"]
  pure ()

/-- Model of `startNode`. -/
def startNode (deployment : String) : M Unit := do
  let _ ← safeExec "solo" ["node", "start", "-i", "node1",
    "--deployment", deployment]
  pure ()

/-- Model of `portForwardIfExists` from index.ts: probe the service with
`kubectl get svc <service> -n <namespace>`; on success, log, spawn the
detached `kubectl port-forward` child (whose asynchronous error listener
only logs, so the spawn itself is modelled as effect-only) and log again;
any thrown error is caught and logged as an informational skip.
(`namespace` is a Lean keyword, hence the parameter name.) -/
def portForwardIfExists (service portSpec namespaceName : String) : M Unit :=
  tryCatchM
    (do
      let exitCode ← safeExec "kubectl" ["get", "svc", service, "-n", namespaceName]
      if exitCode == 0 then do
        safeInfo ("Service " ++ service ++ " exists")
        emit (Event.spawnEv "kubectl"
          ["port-forward", "svc/" ++ service, "-n", namespaceName, portSpec])
        safeInfo ("Port-forward started for " ++ service ++ " on " ++ portSpec)
      else
        pure ())
    (fun m =>
      safeInfo ("Service " ++ service ++ " not found or error occurred: " ++ m ++
        ", skipping port-forward"))

/-- Model of `deploySoloTestNetwork` from index.ts: guard on an empty
`hieroVersion` input, persist the cluster name, then run the eleven fatal
network steps, the diagnostic service listing and the HAProxy port-forward,
wrapping any error as `Failed to deploy Solo test network: ...`.  The
`saveState` call is modelled as always succeeding (its TypeScript wrapper
only rethrows). -/
def deploySoloTestNetwork : M Unit := do
  let clusterName := "solo-e2e"
  let namespaceName := "solo"
  let deployment := "solo-deployment"
  let hieroVersion ← safeGetInput "hieroVersion"
  if hieroVersion == "" then
    safeInfo "Hiero version not found, skipping deployment"
  else do
    emit (Event.saveStateEv "clusterName" clusterName)
    tryCatchM
      (do
        createKindCluster clusterName
        initSolo
        connectSoloToCluster clusterName
        createSoloDeployment namespaceName deployment
        addClusterToDeployment deployment clusterName
        generateNodeKeys deployment
        setupSoloCluster clusterName
        deployNetwork deployment
        setupNode deployment hieroVersion
        startNode deployment
        let _ ← safeExec "kubectl" ["get", "svc", "-n", namespaceName]
        portForwardIfExists "haproxy-node1-svc" "50211:50211" namespaceName)
      (fun m => throwM ("Failed to deploy Solo test network: " ++ m))

/-- Model of `deployMirrorNode` from index.ts: no-op unless the
`installMirrorNode` input is the literal string `true`; otherwise deploy the
mirror node, list services, and start the three skip-if-absent
port-forwards; any error is rethrown as fatal. -/
def deployMirrorNode : M Unit := do
  let installFlag ← safeGetInput "installMirrorNode"
  if !(installFlag == "true") then
    pure ()
  else do
    let namespaceName := "solo"
    let deployment := "solo-deployment"
    let version ← safeGetInput "mirrorNodeVersion"
    let portRest ← safeGetInput "mirrorNodePortRest"
    let portGrpc ← safeGetInput "mirrorNodePortGrpc"
    let portWeb3 ← safeGetInput "mirrorNodePortWeb3Rest"
    tryCatchM
      (do
        let _ ← safeExec "solo" ["mirror-node", "deploy", "--deployment",
          deployment, "--mirror-node-version", version]
        let _ ← safeExec "kubectl" ["get", "svc", "-n", namespaceName]
        portForwardIfExists "mirror-rest" (portRest ++ ":80") namespaceName
        portForwardIfExists "mirror-grpc" (portGrpc ++ ":5600") namespaceName
        portForwardIfExists "mirror-web3" (portWeb3 ++ ":80") namespaceName)
      (fun m => throwM ("Failed to deploy Mirror Node: " ++ m))

/-- Model of `deployRelay` from index.ts: no-op unless the `installRelay`
input is the literal string `true`; otherwise deploy the relay, list
services and start the relay port-forward — and, unlike the mirror-node
pipeline, swallow any error with an `info` line
`Relay service deployment failed: ..., continuing...`. -/
def deployRelay : M Unit := do
  let installFlag ← safeGetInput "installRelay"
  if !(installFlag == "true") then
    pure ()
  else do
    let namespaceName := "solo"
    let deployment := "solo-deployment"
    let relayPort ← safeGetInput "relayPort"
    tryCatchM
      (do
        let _ ← safeExec "solo" ["relay", "deploy", "-i", "node1",
          "--deployment", deployment]
        let _ ← safeExec "kubectl" ["get", "svc", "-n", namespaceName]
        portForwardIfExists "relay-node1-hedera-json-rpc-relay"
          (relayPort ++ ":7546") namespaceName)
      (fun m =>
        safeInfo ("Relay service deployment failed: " ++ m ++ ", continuing..."))

/-- The shell command `createAccount` runs to create an account of the
given type (note the doubled space when the generate flag is empty, exactly
as the TypeScript template produces). -/
def accountCreateCmd (ty : String) : String :=
  let deployment := "solo-deployment"
  let outputFile := "account_create_output_" ++ ty ++ ".txt"
  let generateFlag := if ty == "ecdsa" then "--generate-ecdsa-key" else ""
  "solo account create " ++ generateFlag ++ " --deployment \"" ++ deployment ++
    "\" > " ++ outputFile

/-- The shell pipeline `createAccount` runs to fetch the new account's
private key from the cluster secret. -/
def privateKeyCmd (accountId namespaceName : String) : String :=
  "kubectl get secret account-key-" ++ accountId ++ " -n " ++ namespaceName ++
    " -o jsonpath=\x27\x7b.data.privateKey\x7d\x27 | base64 -d | xargs"

/-- Model of `createAccount` from index.ts, parameterised by the account
type string (`ecdsa` or `ed25519`): create the account via a shell
redirect, read the output file back, extract and JSON-parse the account
record, skip with an `info` line if `accountId` or `publicKey` is falsy
(empty), otherwise fetch the private key, update the balance and emit the
outputs — the `ecdsa*` triple, or the `ed25519*` triple plus the legacy
`accountId` / `publicKey` / `privateKey` aliases.  Any error is rethrown
as `Failed to create <type> account: ...`; a `JSON.parse` syntax error is
modelled by the fixed message `Unexpected token in JSON`. -/
def createAccount (ty : String) : M Unit :=
  let namespaceName := "solo"
  let deployment := "solo-deployment"
  let outputFile := "account_create_output_" ++ ty ++ ".txt"
  tryCatchM
    (do
      let _ ← safeExec "bash" ["-c", accountCreateCmd ty]
      let accountJson ← tryCatchM
        (do
          let content ← readFileM outputFile
          match extractAccountAsJson content with
          | Except.ok j => M.pure j
          | Except.error m => throwM m)
        (fun m => throwM ("Failed to read or parse account file: " ++ m))
      match parseAccountJson accountJson with
      | none => throwM "Unexpected token in JSON"
      | some (accountId, publicKey, _) =>
        if accountId == "" || publicKey == "" then
          safeInfo "Account ID or public key not found, skipping account creation"
        else do
          let pk ← safeExecCapture "bash" ["-c", privateKeyCmd accountId namespaceName]
          let privateKey := pk.2
          let _ ← safeExec "solo" ["account", "update", "--account-id", accountId,
            "--hbar-amount", "10000000", "--deployment", deployment]
          if ty == "ecdsa" then do
            safeSetOutput "ecdsaAccountId" accountId
            safeSetOutput "ecdsaPublicKey" publicKey
            safeSetOutput "ecdsaPrivateKey" privateKey.trim
          else do
            safeSetOutput "ed25519AccountId" accountId
            safeSetOutput "ed25519PublicKey" publicKey
            safeSetOutput "ed25519PrivateKey" privateKey.trim
            safeSetOutput "accountId" accountId
            safeSetOutput "publicKey" publicKey
            safeSetOutput "privateKey" privateKey.trim)
    (fun m => throwM ("Failed to create " ++ ty ++ " account: " ++ m))

/-- Model of `run` from index.ts, the main entry point: the five pipeline
stages in order; any error marks the job failed via `setFailed` with
`Script execution failed: ...`.  (The outer `run().catch` of index.ts is
unreachable here because this handler never throws.) -/
def run : M Unit :=
  tryCatchM
    (do
      deploySoloTestNetwork
      deployMirrorNode
      deployRelay
      createAccount "ecdsa"
      createAccount "ed25519")
    (fun m => emit (Event.setFailedEv ("Script execution failed: " ++ m)))

/-- The event trace of one `provision` run from a fresh process. -/
def runTrace (w : World) : List Event := (run w 0).2.2

/-! ### The teardown entry point (post.ts) -/

/-- Model of `cleanup` from post.ts, with the persisted `clusterName` read
from job state as a parameter: if it is truthy (non-empty), run
`kind delete cluster --name <clusterName>` — post.ts passes the whole
command line as one string to `exec`, modelled here verbatim with an empty
argument vector — then log the deletion. -/
def cleanup (clusterName : String) : M Unit :=
  if !(clusterName == "") then do
    let _ ← execM ("kind delete cluster --name " ++ clusterName) []
    safeInfo ("Cluster " ++ clusterName ++ " deleted")
  else
    pure ()

/-- Model of the post.ts entry point `cleanup().catch(...)`: any error is
downgraded to a `warning` whose text stringifies the `Error` object
(JavaScript renders it as `Error: <message>`). -/
def postEntry (clusterName : String) : M Unit :=
  tryCatchM (cleanup clusterName)
    (fun m => emit (Event.warningEv ("Cleanup failed: Error: " ++ m)))

/-! ### Trace observers -/

/-- Is the event an OS process creation (awaited or detached)? -/
def isProcEv : Event → Bool
  | Event.execEv _ _ => true
  | Event.spawnEv _ _ => true
  | _ => false

/-- Is the event an awaited subprocess invocation? -/
def isExecEv : Event → Bool
  | Event.execEv _ _ => true
  | _ => false

/-- Is the event a detached spawn? -/
def isSpawnEv : Event → Bool
  | Event.spawnEv _ _ => true
  | _ => false

/-- Is the event a `saveState` call? -/
def isSaveStateEv : Event → Bool
  | Event.saveStateEv _ _ => true
  | _ => false

/-- Is the event a `setOutput` call? -/
def isSetOutputEv : Event → Bool
  | Event.setOutputEv _ _ => true
  | _ => false

/-- Is the event an `info` log line? -/
def isInfoEv : Event → Bool
  | Event.infoEv _ => true
  | _ => false

/-- Is the event a `warning` log line? -/
def isWarningEv : Event → Bool
  | Event.warningEv _ => true
  | _ => false

/-- Is the event a `setFailed` call? -/
def isSetFailedEv : Event → Bool
  | Event.setFailedEv _ => true
  | _ => false

end SoloAction

namespace SoloAction

/-! ### Application lemmas for the effect monad -/

theorem bind_eq (x : M α) (f : α → M β) : x >>= f = M.bind x f := rfl

theorem pure_eq (a : α) : (pure a : M α) = M.pure a := rfl

theorem M.pure_apply (a : α) (w : World) (n : Nat) :
    (M.pure a : M α) w n = (Except.ok a, n, []) := rfl

theorem M.bind_apply (x : M α) (f : α → M β) (w : World) (n : Nat) :
    M.bind x f w n =
      match x w n with
      | (Except.ok a, n1, t) =>
        match f a w n1 with
        | (r, n2, t2) => (r, n2, t ++ t2)
      | (Except.error e, n1, t) => (Except.error e, n1, t) := rfl

/-- Characterization of `safeExec` as a single step on the world. -/
theorem safeExec_apply (c : String) (a : List String) (w : World) (n : Nat) :
    safeExec c a w n =
      match w.exec n c a with
      | ExecRes.ok _ => (Except.ok 0, n + 1, [Event.execEv c a])
      | ExecRes.err m =>
        (Except.error (cmdFailedMsg c a m), n + 1, [Event.execEv c a]) := by
  cases h : w.exec n c a <;>
    simp [safeExec, tryCatchM, M.bind, M.pure, execM, throwM, h]

/-- Characterization of `safeExecCapture` as a single step on the world. -/
theorem safeExecCapture_apply (c : String) (a : List String) (w : World) (n : Nat) :
    safeExecCapture c a w n =
      match w.exec n c a with
      | ExecRes.ok out => (Except.ok (0, out), n + 1, [Event.execEv c a])
      | ExecRes.err m =>
        (Except.error (cmdFailedMsg c a m), n + 1, [Event.execEv c a]) := by
  cases h : w.exec n c a <;>
    simp [safeExecCapture, tryCatchM, M.bind, M.pure, execM, throwM, h]

/-- Characterization of `portForwardIfExists`: one probe, then either the
spawn with its two log lines, or the informational skip. -/
theorem portForwardIfExists_apply (svc ps ns : String) (w : World) (n : Nat) :
    portForwardIfExists svc ps ns w n =
      match w.exec n "kubectl" ["get", "svc", svc, "-n", ns] with
      | ExecRes.ok _ =>
        (Except.ok (), n + 1,
          [Event.execEv "kubectl" ["get", "svc", svc, "-n", ns],
           Event.infoEv ("Service " ++ svc ++ " exists"),
           Event.spawnEv "kubectl" ["port-forward", "svc/" ++ svc, "-n", ns, ps],
           Event.infoEv ("Port-forward started for " ++ svc ++ " on " ++ ps)])
      | ExecRes.err m =>
        (Except.ok (), n + 1,
          [Event.execEv "kubectl" ["get", "svc", svc, "-n", ns],
           Event.infoEv ("Service " ++ svc ++ " not found or error occurred: " ++
             cmdFailedMsg "kubectl" ["get", "svc", svc, "-n", ns] m ++
             ", skipping port-forward")]) := by
  cases h : w.exec n "kubectl" ["get", "svc", svc, "-n", ns] <;>
    simp [portForwardIfExists, tryCatchM, bind_eq, M.bind, M.pure, pure_eq,
      safeExec_apply, safeInfo, emit, h]

/-- `deployMirrorNode` is a pure no-op when `installMirrorNode` is not the
literal string `true`. -/
theorem deployMirrorNode_skip (w : World) (n : Nat)
    (h : w.inputs "installMirrorNode" ≠ "true") :
    deployMirrorNode w n = (Except.ok (), n, []) := by
  simp [deployMirrorNode, bind_eq, M.bind, M.pure, pure_eq, safeGetInput, h]

/-- `deployRelay` is a pure no-op when `installRelay` is not the literal
string `true`. -/
theorem deployRelay_skip (w : World) (n : Nat)
    (h : w.inputs "installRelay" ≠ "true") :
    deployRelay w n = (Except.ok (), n, []) := by
  simp [deployRelay, bind_eq, M.bind, M.pure, pure_eq, safeGetInput, h]

/-- With an empty `hieroVersion` input, `deploySoloTestNetwork` only logs
the skip line: no subprocess, no persisted state. -/
theorem deploySoloTestNetwork_skip (w : World) (n : Nat)
    (h : w.inputs "hieroVersion" = "") :
    deploySoloTestNetwork w n =
      (Except.ok (), n,
        [Event.infoEv "Hiero version not found, skipping deployment"]) := by
  simp [deploySoloTestNetwork, bind_eq, M.bind, M.pure, pure_eq, safeGetInput,
    safeInfo, emit, h]

end SoloAction

namespace SoloAction

/-! ### Which events a computation can emit -/

/-- Every event the computation emits, in any world and at any invocation
count, satisfies `P`. -/
def EmitsOnly (P : Event → Prop) (m : M α) : Prop :=
  ∀ w n, ∀ e ∈ (m w n).2.2, P e

theorem emitsOnly_pure (P : Event → Prop) (a : α) :
    EmitsOnly P (pure a : M α) := by
  intro w n e he
  simp [pure_eq, M.pure] at he

theorem emitsOnly_mpure (P : Event → Prop) (a : α) :
    EmitsOnly P (M.pure a : M α) := by
  intro w n e he
  simp [M.pure] at he

theorem emitsOnly_throw (P : Event → Prop) (m : String) :
    EmitsOnly P (throwM m : M α) := by
  intro w n e he
  simp [throwM] at he

theorem emitsOnly_emit {P : Event → Prop} {e : Event} (h : P e) :
    EmitsOnly P (emit e) := by
  intro w n e2 he
  simp [emit] at he
  exact he ▸ h

theorem emitsOnly_safeInfo {P : Event → Prop} (h : ∀ m, P (Event.infoEv m))
    (msg : String) : EmitsOnly P (safeInfo msg) :=
  emitsOnly_emit (h msg)

theorem emitsOnly_safeGetInput (P : Event → Prop) (name : String) :
    EmitsOnly P (safeGetInput name) := by
  intro w n e he
  simp [safeGetInput] at he

theorem emitsOnly_readFile (P : Event → Prop) (path : String) :
    EmitsOnly P (readFileM path) := by
  intro w n e he
  unfold readFileM at he
  rcases hfc : w.fileContents path with _ | c <;> rw [hfc] at he <;> simp at he

theorem emitsOnly_mbind {P : Event → Prop} {x : M α} {f : α → M β}
    (hx : EmitsOnly P x) (hf : ∀ a, EmitsOnly P (f a)) :
    EmitsOnly P (M.bind x f) := by
  intro w n e he
  rw [M.bind_apply] at he
  rcases h1 : x w n with ⟨r1, n1, t1⟩
  rw [h1] at he
  cases r1 with
  | ok a =>
    dsimp only at he
    rcases h2 : f a w n1 with ⟨r2, n2, t2⟩
    rw [h2] at he
    dsimp only at he
    rw [List.mem_append] at he
    rcases he with he | he
    · exact hx w n e (by rw [h1]; exact he)
    · exact hf a w n1 e (by rw [h2]; exact he)
  | error m =>
    dsimp only at he
    exact hx w n e (by rw [h1]; exact he)

theorem emitsOnly_bind {P : Event → Prop} {x : M α} {f : α → M β}
    (hx : EmitsOnly P x) (hf : ∀ a, EmitsOnly P (f a)) :
    EmitsOnly P (x >>= f) := by
  rw [bind_eq]
  exact emitsOnly_mbind hx hf

theorem emitsOnly_tryCatch {P : Event → Prop} {x : M α} {h : String → M α}
    (hx : EmitsOnly P x) (hh : ∀ m, EmitsOnly P (h m)) :
    EmitsOnly P (tryCatchM x h) := by
  intro w n e he
  unfold tryCatchM at he
  rcases h1 : x w n with ⟨r1, n1, t1⟩
  rw [h1] at he
  cases r1 with
  | ok a =>
    dsimp only at he
    exact hx w n e (by rw [h1]; exact he)
  | error m =>
    dsimp only at he
    rcases h2 : h m w n1 with ⟨r2, n2, t2⟩
    rw [h2] at he
    dsimp only at he
    rw [List.mem_append] at he
    rcases he with he | he
    · exact hx w n e (by rw [h1]; exact he)
    · exact hh m w n1 e (by rw [h2]; exact he)

theorem emitsOnly_ite {P : Event → Prop} {c : Prop} [Decidable c]
    {x y : M α} (hx : EmitsOnly P x) (hy : EmitsOnly P y) :
    EmitsOnly P (if c then x else y) := by
  by_cases h : c <;> simp [h] <;> assumption

theorem emitsOnly_safeExec {P : Event → Prop} {c : String} {a : List String}
    (h : P (Event.execEv c a)) : EmitsOnly P (safeExec c a) := by
  intro w n e he
  rw [safeExec_apply] at he
  cases hx : w.exec n c a <;> rw [hx] at he <;> simp at he <;> exact he ▸ h

theorem emitsOnly_safeExecCapture {P : Event → Prop} {c : String}
    {a : List String} (h : P (Event.execEv c a)) :
    EmitsOnly P (safeExecCapture c a) := by
  intro w n e he
  rw [safeExecCapture_apply] at he
  cases hx : w.exec n c a <;> rw [hx] at he <;> simp at he <;> exact he ▸ h

end SoloAction

namespace SoloAction

/-! ### EmitsOnly lemmas for each pipeline component -/

theorem emitsOnly_createKindCluster {P : Event → Prop}
    (hE : ∀ c a, P (Event.execEv c a)) (cn : String) :
    EmitsOnly P (createKindCluster cn) := by
  unfold createKindCluster
  exact emitsOnly_bind (emitsOnly_safeExec (hE _ _)) (fun _ => emitsOnly_pure P _)

theorem emitsOnly_initSolo {P : Event → Prop}
    (hE : ∀ c a, P (Event.execEv c a)) :
    EmitsOnly P initSolo := by
  unfold initSolo
  exact emitsOnly_bind (emitsOnly_safeExec (hE _ _)) (fun _ => emitsOnly_pure P _)

theorem emitsOnly_connectSoloToCluster {P : Event → Prop}
    (hE : ∀ c a, P (Event.execEv c a)) (cn : String) :
    EmitsOnly P (connectSoloToCluster cn) := by
  unfold connectSoloToCluster
  exact emitsOnly_bind (emitsOnly_safeExec (hE _ _)) (fun _ => emitsOnly_pure P _)

theorem emitsOnly_createSoloDeployment {P : Event → Prop}
    (hE : ∀ c a, P (Event.execEv c a)) (ns dep : String) :
    EmitsOnly P (createSoloDeployment ns dep) := by
  unfold createSoloDeployment
  exact emitsOnly_bind (emitsOnly_safeExec (hE _ _)) (fun _ => emitsOnly_pure P _)

theorem emitsOnly_addClusterToDeployment {P : Event → Prop}
    (hE : ∀ c a, P (Event.execEv c a)) (dep cn : String) :
    EmitsOnly P (addClusterToDeployment dep cn) := by
  unfold addClusterToDeployment
  exact emitsOnly_bind (emitsOnly_safeExec (hE _ _)) (fun _ => emitsOnly_pure P _)

theorem emitsOnly_generateNodeKeys {P : Event → Prop}
    (hE : ∀ c a, P (Event.execEv c a)) (dep : String) :
    EmitsOnly P (generateNodeKeys dep) := by
  unfold generateNodeKeys
  exact emitsOnly_bind (emitsOnly_safeExec (hE _ _)) (fun _ => emitsOnly_pure P _)

theorem emitsOnly_setupSoloCluster {P : Event → Prop}
    (hE : ∀ c a, P (Event.execEv c a)) (cn : String) :
    EmitsOnly P (setupSoloCluster cn) := by
  unfold setupSoloCluster
  exact emitsOnly_bind (emitsOnly_safeExec (hE _ _)) (fun _ => emitsOnly_pure P _)

theorem emitsOnly_deployNetwork {P : Event → Prop}
    (hE : ∀ c a, P (Event.execEv c a)) (dep : String) :
    EmitsOnly P (deployNetwork dep) := by
  unfold deployNetwork
  exact emitsOnly_bind (emitsOnly_safeExec (hE _ _)) (fun _ => emitsOnly_pure P _)

theorem emitsOnly_setupNode {P : Event → Prop}
    (hE : ∀ c a, P (Event.execEv c a)) (dep hv : String) :
    EmitsOnly P (setupNode dep hv) := by
  unfold setupNode
  exact emitsOnly_bind (emitsOnly_safeExec (hE _ _)) (fun _ => emitsOnly_pure P _)

theorem emitsOnly_startNode {P : Event → Prop}
    (hE : ∀ c a, P (Event.execEv c a)) (dep : String) :
    EmitsOnly P (startNode dep) := by
  unfold startNode
  exact emitsOnly_bind (emitsOnly_safeExec (hE _ _)) (fun _ => emitsOnly_pure P _)

theorem emitsOnly_portForwardIfExists {P : Event → Prop}
    (hE : ∀ c a, P (Event.execEv c a))
    (hS : ∀ c a, P (Event.spawnEv c a))
    (hI : ∀ m, P (Event.infoEv m)) (svc ps ns : String) :
    EmitsOnly P (portForwardIfExists svc ps ns) := by
  unfold portForwardIfExists
  refine emitsOnly_tryCatch ?_ (fun m => emitsOnly_safeInfo hI _)
  refine emitsOnly_bind (emitsOnly_safeExec (hE _ _)) (fun ec => ?_)
  refine emitsOnly_ite ?_ (emitsOnly_pure P _)
  refine emitsOnly_bind (emitsOnly_safeInfo hI _) (fun _ => ?_)
  refine emitsOnly_bind (emitsOnly_emit (hS _ _)) (fun _ => ?_)
  exact emitsOnly_safeInfo hI _

theorem emitsOnly_deploySoloTestNetwork {P : Event → Prop}
    (hE : ∀ c a, P (Event.execEv c a))
    (hS : ∀ c a, P (Event.spawnEv c a))
    (hI : ∀ m, P (Event.infoEv m))
    (hSt : P (Event.saveStateEv "clusterName" "solo-e2e")) :
    EmitsOnly P deploySoloTestNetwork := by
  unfold deploySoloTestNetwork
  refine emitsOnly_bind (emitsOnly_safeGetInput P _) (fun hv => ?_)
  refine emitsOnly_ite (emitsOnly_safeInfo hI _) ?_
  refine emitsOnly_bind (emitsOnly_emit hSt) (fun _ => ?_)
  refine emitsOnly_tryCatch ?_ (fun m => emitsOnly_throw P _)
  refine emitsOnly_bind (emitsOnly_createKindCluster hE _) (fun _ => ?_)
  refine emitsOnly_bind (emitsOnly_initSolo hE) (fun _ => ?_)
  refine emitsOnly_bind (emitsOnly_connectSoloToCluster hE _) (fun _ => ?_)
  refine emitsOnly_bind (emitsOnly_createSoloDeployment hE _ _) (fun _ => ?_)
  refine emitsOnly_bind (emitsOnly_addClusterToDeployment hE _ _) (fun _ => ?_)
  refine emitsOnly_bind (emitsOnly_generateNodeKeys hE _) (fun _ => ?_)
  refine emitsOnly_bind (emitsOnly_setupSoloCluster hE _) (fun _ => ?_)
  refine emitsOnly_bind (emitsOnly_deployNetwork hE _) (fun _ => ?_)
  refine emitsOnly_bind (emitsOnly_setupNode hE _ _) (fun _ => ?_)
  refine emitsOnly_bind (emitsOnly_startNode hE _) (fun _ => ?_)
  refine emitsOnly_bind (emitsOnly_safeExec (hE _ _)) (fun _ => ?_)
  exact emitsOnly_portForwardIfExists hE hS hI _ _ _

theorem emitsOnly_deployMirrorNode {P : Event → Prop}
    (hE : ∀ c a, P (Event.execEv c a))
    (hS : ∀ c a, P (Event.spawnEv c a))
    (hI : ∀ m, P (Event.infoEv m)) :
    EmitsOnly P deployMirrorNode := by
  unfold deployMirrorNode
  refine emitsOnly_bind (emitsOnly_safeGetInput P _) (fun flag => ?_)
  refine emitsOnly_ite (emitsOnly_pure P _) ?_
  refine emitsOnly_bind (emitsOnly_safeGetInput P _) (fun v => ?_)
  refine emitsOnly_bind (emitsOnly_safeGetInput P _) (fun pr => ?_)
  refine emitsOnly_bind (emitsOnly_safeGetInput P _) (fun pg => ?_)
  refine emitsOnly_bind (emitsOnly_safeGetInput P _) (fun pw => ?_)
  refine emitsOnly_tryCatch ?_ (fun m => emitsOnly_throw P _)
  refine emitsOnly_bind (emitsOnly_safeExec (hE _ _)) (fun _ => ?_)
  refine emitsOnly_bind (emitsOnly_safeExec (hE _ _)) (fun _ => ?_)
  refine emitsOnly_bind (emitsOnly_portForwardIfExists hE hS hI _ _ _) (fun _ => ?_)
  refine emitsOnly_bind (emitsOnly_portForwardIfExists hE hS hI _ _ _) (fun _ => ?_)
  exact emitsOnly_portForwardIfExists hE hS hI _ _ _

theorem emitsOnly_deployRelay {P : Event → Prop}
    (hE : ∀ c a, P (Event.execEv c a))
    (hS : ∀ c a, P (Event.spawnEv c a))
    (hI : ∀ m, P (Event.infoEv m)) :
    EmitsOnly P deployRelay := by
  unfold deployRelay
  refine emitsOnly_bind (emitsOnly_safeGetInput P _) (fun flag => ?_)
  refine emitsOnly_ite (emitsOnly_pure P _) ?_
  refine emitsOnly_bind (emitsOnly_safeGetInput P _) (fun rp => ?_)
  refine emitsOnly_tryCatch ?_ (fun m => emitsOnly_safeInfo hI _)
  refine emitsOnly_bind (emitsOnly_safeExec (hE _ _)) (fun _ => ?_)
  refine emitsOnly_bind (emitsOnly_safeExec (hE _ _)) (fun _ => ?_)
  exact emitsOnly_portForwardIfExists hE hS hI _ _ _

theorem emitsOnly_createAccount {P : Event → Prop}
    (hE : ∀ c a, P (Event.execEv c a))
    (hI : ∀ m, P (Event.infoEv m))
    (hO : ∀ k v, P (Event.setOutputEv k v)) (ty : String) :
    EmitsOnly P (createAccount ty) := by
  unfold createAccount
  refine emitsOnly_tryCatch ?_ (fun m => emitsOnly_throw P _)
  refine emitsOnly_bind (emitsOnly_safeExec (hE _ _)) (fun _ => ?_)
  refine emitsOnly_bind ?_ (fun accountJson => ?_)
  · refine emitsOnly_tryCatch ?_ (fun m => emitsOnly_throw P _)
    refine emitsOnly_bind (emitsOnly_readFile P _) (fun content => ?_)
    cases extractAccountAsJson content
    · exact emitsOnly_throw P _
    · exact emitsOnly_mpure P _
  · cases hp : parseAccountJson accountJson with
    | none => exact emitsOnly_throw P _
    | some v =>
      rcases v with ⟨accountId, publicKey, bal⟩
      refine emitsOnly_ite (emitsOnly_safeInfo hI _) ?_
      refine emitsOnly_bind (emitsOnly_safeExecCapture (hE _ _)) (fun pk => ?_)
      refine emitsOnly_bind (emitsOnly_safeExec (hE _ _)) (fun _ => ?_)
      refine emitsOnly_ite ?_ ?_
      · refine emitsOnly_bind (emitsOnly_emit (hO _ _)) (fun _ => ?_)
        refine emitsOnly_bind (emitsOnly_emit (hO _ _)) (fun _ => ?_)
        exact emitsOnly_emit (hO _ _)
      · refine emitsOnly_bind (emitsOnly_emit (hO _ _)) (fun _ => ?_)
        refine emitsOnly_bind (emitsOnly_emit (hO _ _)) (fun _ => ?_)
        refine emitsOnly_bind (emitsOnly_emit (hO _ _)) (fun _ => ?_)
        refine emitsOnly_bind (emitsOnly_emit (hO _ _)) (fun _ => ?_)
        refine emitsOnly_bind (emitsOnly_emit (hO _ _)) (fun _ => ?_)
        exact emitsOnly_emit (hO _ _)

theorem emitsOnly_run {P : Event → Prop}
    (hE : ∀ c a, P (Event.execEv c a))
    (hS : ∀ c a, P (Event.spawnEv c a))
    (hI : ∀ m, P (Event.infoEv m))
    (hO : ∀ k v, P (Event.setOutputEv k v))
    (hSt : P (Event.saveStateEv "clusterName" "solo-e2e"))
    (hF : ∀ m, P (Event.setFailedEv m)) :
    EmitsOnly P run := by
  unfold run
  refine emitsOnly_tryCatch ?_ (fun m => emitsOnly_emit (hF _))
  refine emitsOnly_bind (emitsOnly_deploySoloTestNetwork hE hS hI hSt) (fun _ => ?_)
  refine emitsOnly_bind (emitsOnly_deployMirrorNode hE hS hI) (fun _ => ?_)
  refine emitsOnly_bind (emitsOnly_deployRelay hE hS hI) (fun _ => ?_)
  refine emitsOnly_bind (emitsOnly_createAccount hE hI hO _) (fun _ => ?_)
  exact emitsOnly_createAccount hE hI hO _

end SoloAction

namespace SoloAction

/-! ### Flat characterization of `createAccount` -/

/-- The argument vector of the `solo account update` step. -/
def accountUpdateArgs (accountId : String) : List String :=
  ["account", "update", "--account-id", accountId, "--hbar-amount", "10000000",
   "--deployment", "solo-deployment"]

/-- The `setOutput` events `createAccount` emits on full success: the
`ecdsa*` triple, or the `ed25519*` triple followed by the legacy aliases. -/
def accountOutputEvents (ty accountId publicKey pkTrim : String) : List Event :=
  if ty == "ecdsa" then
    [Event.setOutputEv "ecdsaAccountId" accountId,
     Event.setOutputEv "ecdsaPublicKey" publicKey,
     Event.setOutputEv "ecdsaPrivateKey" pkTrim]
  else
    [Event.setOutputEv "ed25519AccountId" accountId,
     Event.setOutputEv "ed25519PublicKey" publicKey,
     Event.setOutputEv "ed25519PrivateKey" pkTrim,
     Event.setOutputEv "accountId" accountId,
     Event.setOutputEv "publicKey" publicKey,
     Event.setOutputEv "privateKey" pkTrim]

/-- The wrapper `createAccount` puts around any error it rethrows. -/
def createAccountErr (ty m : String) : String :=
  "Failed to create " ++ ty ++ " account: " ++ m

/-- Step-by-step unfolding of `createAccount` as a flat decision tree on the
world: proved equal to the monadic definition in `createAccount_apply`. -/
def createAccountRun (ty : String) (w : World) (n : Nat) :
    Except String Unit × Nat × List Event :=
  match w.exec n "bash" ["-c", accountCreateCmd ty] with
  | ExecRes.err m =>
    (Except.error (createAccountErr ty (cmdFailedMsg "bash" ["-c", accountCreateCmd ty] m)),
      n + 1, [Event.execEv "bash" ["-c", accountCreateCmd ty]])
  | ExecRes.ok _ =>
    match w.fileContents ("account_create_output_" ++ ty ++ ".txt") with
    | none =>
      (Except.error (createAccountErr ty ("Failed to read or parse account file: " ++
        ("Failed to read file " ++ ("account_create_output_" ++ ty ++ ".txt") ++ ": ENOENT"))),
        n + 1, [Event.execEv "bash" ["-c", accountCreateCmd ty]])
    | some content =>
      match extractAccountAsJson content with
      | Except.error m =>
        (Except.error (createAccountErr ty ("Failed to read or parse account file: " ++ m)),
          n + 1, [Event.execEv "bash" ["-c", accountCreateCmd ty]])
      | Except.ok j =>
        match parseAccountJson j with
        | none =>
          (Except.error (createAccountErr ty "Unexpected token in JSON"), n + 1,
            [Event.execEv "bash" ["-c", accountCreateCmd ty]])
        | some (accountId, publicKey, _) =>
          if accountId == "" || publicKey == "" then
            (Except.ok (), n + 1,
              [Event.execEv "bash" ["-c", accountCreateCmd ty],
               Event.infoEv "Account ID or public key not found, skipping account creation"])
          else
            match w.exec (n + 1) "bash" ["-c", privateKeyCmd accountId "solo"] with
            | ExecRes.err m =>
              (Except.error (createAccountErr ty
                 (cmdFailedMsg "bash" ["-c", privateKeyCmd accountId "solo"] m)),
                n + 2,
                [Event.execEv "bash" ["-c", accountCreateCmd ty],
                 Event.execEv "bash" ["-c", privateKeyCmd accountId "solo"]])
            | ExecRes.ok out1 =>
              match w.exec (n + 2) "solo" (accountUpdateArgs accountId) with
              | ExecRes.err m =>
                (Except.error (createAccountErr ty
                   (cmdFailedMsg "solo" (accountUpdateArgs accountId) m)),
                  n + 3,
                  [Event.execEv "bash" ["-c", accountCreateCmd ty],
                   Event.execEv "bash" ["-c", privateKeyCmd accountId "solo"],
                   Event.execEv "solo" (accountUpdateArgs accountId)])
              | ExecRes.ok _ =>
                (Except.ok (), n + 3,
                  [Event.execEv "bash" ["-c", accountCreateCmd ty],
                   Event.execEv "bash" ["-c", privateKeyCmd accountId "solo"],
                   Event.execEv "solo" (accountUpdateArgs accountId)] ++
                    accountOutputEvents ty accountId publicKey out1.trim)

theorem createAccount_apply (ty : String) (w : World) (n : Nat) :
    createAccount ty w n = createAccountRun ty w n := by
  unfold createAccount createAccountRun
  cases hx0 : w.exec n "bash" ["-c", accountCreateCmd ty] with
  | err m =>
    simp [tryCatchM, bind_eq, M.bind, M.pure, pure_eq, throwM, safeExec_apply,
      createAccountErr, hx0]
  | ok out0 =>
    cases hfc : w.fileContents ("account_create_output_" ++ ty ++ ".txt") with
    | none =>
      simp [tryCatchM, bind_eq, M.bind, M.pure, pure_eq, throwM, safeExec_apply,
        readFileM, createAccountErr, hx0, hfc]
    | some content =>
      cases hex : extractAccountAsJson content with
      | error m =>
        simp [tryCatchM, bind_eq, M.bind, M.pure, pure_eq, throwM, safeExec_apply,
          readFileM, createAccountErr, hx0, hfc, hex]
      | ok j =>
        cases hp : parseAccountJson j with
        | none =>
          simp [tryCatchM, bind_eq, M.bind, M.pure, pure_eq, throwM, safeExec_apply,
            readFileM, createAccountErr, hx0, hfc, hex, hp]
        | some v =>
          rcases v with ⟨aid, pk, bal⟩
          by_cases ha : aid = ""
          · simp [tryCatchM, bind_eq, M.bind, M.pure, pure_eq, throwM, safeExec_apply,
              readFileM, safeInfo, emit, createAccountErr, hx0, hfc, hex, hp, ha]
          by_cases hb : pk = ""
          · simp [tryCatchM, bind_eq, M.bind, M.pure, pure_eq, throwM, safeExec_apply,
              readFileM, safeInfo, emit, createAccountErr, hx0, hfc, hex, hp, ha, hb]
          cases hx1 : w.exec (n + 1) "bash" ["-c", privateKeyCmd aid "solo"] with
          | err m =>
            simp [tryCatchM, bind_eq, M.bind, M.pure, pure_eq, throwM, safeExec_apply,
              safeExecCapture_apply, readFileM, safeInfo, emit, createAccountErr,
              Nat.add_assoc, hx0, hfc, hex, hp, ha, hb, hx1]
          | ok out1 =>
            cases hx2 : w.exec (n + 2) "solo" ["account", "update", "--account-id",
                aid, "--hbar-amount", "10000000", "--deployment", "solo-deployment"] with
            | err m =>
              simp [tryCatchM, bind_eq, M.bind, M.pure, pure_eq, throwM, safeExec_apply,
                safeExecCapture_apply, readFileM, safeInfo, emit, safeSetOutput,
                createAccountErr, accountUpdateArgs, Nat.add_assoc,
                hx0, hfc, hex, hp, ha, hb, hx1, hx2]
            | ok out2 =>
              by_cases hty : ty = "ecdsa"
              · subst hty
                have hfc2 : w.fileContents "account_create_output_ecdsa.txt" = some content := by
                  simpa using hfc
                simp [tryCatchM, bind_eq, M.bind, M.pure, pure_eq, throwM, safeExec_apply,
                  safeExecCapture_apply, readFileM, safeInfo, emit, safeSetOutput,
                  createAccountErr, accountUpdateArgs, accountOutputEvents,
                  Nat.add_assoc, hx0, hfc2, hex, hp, ha, hb, hx1, hx2]
              · simp [tryCatchM, bind_eq, M.bind, M.pure, pure_eq, throwM, safeExec_apply,
                  safeExecCapture_apply, readFileM, safeInfo, emit, safeSetOutput,
                  createAccountErr, accountUpdateArgs, accountOutputEvents,
                  Nat.add_assoc, hx0, hfc, hex, hp, ha, hb, hx1, hx2, hty]
end SoloAction

namespace SoloAction

/-! ### Soundness and completeness of the leftmost regex search -/

/-- A successful backtracking search came from some candidate. -/
theorem firstSome_eq_some {f : α → Option β} {l : List α} {b : β}
    (h : firstSome f l = some b) : ∃ a ∈ l, f a = some b := by
  induction l with
  | nil => simp [firstSome] at h
  | cons x t ih =>
    unfold firstSome at h
    rcases hx : f x with _ | v
    · rw [hx] at h
      dsimp only at h
      rcases ih h with ⟨a, ha, hfa⟩
      exact ⟨a, List.mem_cons_of_mem x ha, hfa⟩
    · rw [hx] at h
      dsimp only at h
      exact ⟨x, List.mem_cons_self x t, by rw [hx, h]⟩

/-- What one quantifier branch of `matchToks` yields: the consumed prefix
is the taken characters followed by the continuation's consumption. -/
theorem matchToks_star_branch {ts : List Tok} {s c r : List Char} {cand : List Nat}
    (ih : ∀ {s2 c2 r2 : List Char}, matchToks ts s2 = some (c2, r2) → c2 ++ r2 = s2)
    (h : firstSome
      (fun k => (matchToks ts (s.drop k)).map (fun q => (s.take k ++ q.1, q.2)))
      cand = some (c, r)) : c ++ r = s := by
  rcases firstSome_eq_some h with ⟨k, _, hk⟩
  rcases hm : matchToks ts (s.drop k) with _ | ⟨c2, r2⟩ <;> rw [hm] at hk
  · simp at hk
  · rw [Option.map_some'] at hk
    have hk2 : (s.take k ++ c2, r2) = (c, r) := by simpa using hk
    have hc : s.take k ++ c2 = c := congrArg Prod.fst hk2
    have hr : r2 = r := congrArg Prod.snd hk2
    have hsum : c2 ++ r2 = s.drop k := ih hm
    calc c ++ r = (s.take k ++ c2) ++ r2 := by rw [hc, hr]
    _ = s.take k ++ (c2 ++ r2) := by rw [List.append_assoc]
    _ = s.take k ++ s.drop k := by rw [hsum]
    _ = s := List.take_append_drop k s

/-- The consumed characters and the remainder reassemble the input. -/
theorem matchToks_append {toks : List Tok} :
    ∀ {s c r : List Char}, matchToks toks s = some (c, r) → c ++ r = s := by
  induction toks with
  | nil =>
    intro s c r h
    unfold matchToks at h
    have h2 : (([] : List Char), s) = (c, r) := by simpa using h
    have hc : ([] : List Char) = c := congrArg Prod.fst h2
    have hr : s = r := congrArg Prod.snd h2
    rw [← hc, ← hr]
    rfl
  | cons tk ts ih =>
    intro s c r h
    cases tk with
    | lit l =>
      unfold matchToks at h
      by_cases hp : l.isPrefixOf s
      · rw [if_pos hp] at h
        rcases hm : matchToks ts (s.drop l.length) with _ | ⟨c2, r2⟩ <;> rw [hm] at h
        · simp at h
        · rw [Option.map_some'] at h
          have h2 : (l ++ c2, r2) = (c, r) := by simpa using h
          have hc : l ++ c2 = c := congrArg Prod.fst h2
          have hr : r2 = r := congrArg Prod.snd h2
          have hsum : c2 ++ r2 = s.drop l.length := ih hm
          have hpre : l = s.take l.length :=
            List.prefix_iff_eq_take.mp (List.isPrefixOf_iff_prefix.mp hp)
          calc c ++ r = (l ++ c2) ++ r2 := by rw [hc, hr]
          _ = l ++ (c2 ++ r2) := by rw [List.append_assoc]
          _ = s.take l.length ++ s.drop l.length := by rw [hsum, ← hpre]
          _ = s := List.take_append_drop _ s
      · rw [if_neg hp] at h
        exact absurd h (by simp)
    | starG p =>
      unfold matchToks at h
      exact matchToks_star_branch (fun {s2 c2 r2} => ih) h
    | starL p =>
      unfold matchToks at h
      exact matchToks_star_branch (fun {s2 c2 r2} => ih) h
    | plusG p =>
      unfold matchToks at h
      exact matchToks_star_branch (fun {s2 c2 r2} => ih) h

/-- A successful search is a match at its index, and no earlier index
matches: soundness of the leftmost search. -/
theorem searchFrom_sound {toks : List Tok} :
    ∀ {s : List Char} {i : Nat} {c r : List Char},
      searchFrom toks s = some (i, c, r) →
      matchToks toks (List.drop i s) = some (c, r) ∧
        ∀ j, j < i → matchToks toks (List.drop j s) = none := by
  intro s
  induction s with
  | nil =>
    intro i c r h
    unfold searchFrom at h
    rcases hm : matchToks toks ([] : List Char) with _ | q <;> rw [hm] at h
    · simp at h
    · have h2 : ((0 : Nat), q.1, q.2) = (i, c, r) := by simpa using h
      have hi : (0 : Nat) = i := congrArg Prod.fst h2
      have hc : q.1 = c := congrArg (fun p => p.2.1) h2
      have hr : q.2 = r := congrArg (fun p => p.2.2) h2
      refine ⟨?_, by omega⟩
      rw [← hi, ← hc, ← hr]
      simpa using hm
  | cons x t ih =>
    intro i c r h
    unfold searchFrom at h
    rcases hm : matchToks toks (x :: t) with _ | q <;> rw [hm] at h
    · rcases hs : searchFrom toks t with _ | ⟨i2, c2, r2⟩ <;> rw [hs] at h
      · simp at h
      · rw [Option.map_some'] at h
        have h2 : (i2 + 1, c2, r2) = (i, c, r) := by simpa using h
        have hi : i2 + 1 = i := congrArg Prod.fst h2
        have hc : c2 = c := congrArg (fun p => p.2.1) h2
        have hr : r2 = r := congrArg (fun p => p.2.2) h2
        rcases ih hs with ⟨hmatch, hmin⟩
        constructor
        · rw [← hi, ← hc, ← hr]
          simpa [List.drop_succ_cons] using hmatch
        · intro j hj
          cases j with
          | zero => simpa using hm
          | succ j2 =>
            have hj2 : j2 < i2 := by omega
            simpa [List.drop_succ_cons] using hmin j2 hj2
    · have h2 : ((0 : Nat), q.1, q.2) = (i, c, r) := by simpa using h
      have hi : (0 : Nat) = i := congrArg Prod.fst h2
      have hc : q.1 = c := congrArg (fun p => p.2.1) h2
      have hr : q.2 = r := congrArg (fun p => p.2.2) h2
      refine ⟨?_, by omega⟩
      rw [← hi, ← hc, ← hr]
      simpa using hm

/-- A match at an index before which no match exists is what the search
returns: completeness of the leftmost search. -/
theorem searchFrom_complete {toks : List Tok} :
    ∀ {s : List Char} {i : Nat} {c r : List Char},
      matchToks toks (List.drop i s) = some (c, r) →
      (∀ j, j < i → matchToks toks (List.drop j s) = none) →
      searchFrom toks s = some (i, c, r) := by
  intro s
  induction s with
  | nil =>
    intro i c r h hmin
    cases i with
    | zero =>
      unfold searchFrom
      rw [show matchToks toks ([] : List Char) = some (c, r) from by simpa using h]
    | succ i2 =>
      have h0 : matchToks toks (List.drop 0 ([] : List Char)) = none :=
        hmin 0 (by omega)
      simp only [List.drop_nil] at h h0
      rw [h] at h0
      exact absurd h0 (by simp)
  | cons x t ih =>
    intro i c r h hmin
    cases i with
    | zero =>
      unfold searchFrom
      rw [show matchToks toks (x :: t) = some (c, r) from by simpa using h]
    | succ i2 =>
      have h0 : matchToks toks (x :: t) = none := by simpa using hmin 0 (by omega)
      unfold searchFrom
      rw [h0]
      have hrec : searchFrom toks t = some (i2, c, r) := by
        apply ih
        · simpa [List.drop_succ_cons] using h
        · intro j hj
          simpa [List.drop_succ_cons] using hmin (j + 1) (by omega)
      rw [hrec]
      rfl

end SoloAction

namespace SoloAction

/-! ### Claim C2: what `extractAccountAsJson` accepts -/

/-- The pattern transcribed from the spec's words (for comparison with the
code's `accountJsonToks`): optional whitespace around each colon and comma,
values matched by the quote-free class `[^"]*`.  This is NOT the pattern
the code uses; the counterexample below separates them. -/
def specAccountToks : List Tok :=
  [Tok.lit ['\x7b'], Tok.starG isJsWhitespace,
   Tok.lit ("\"accountId\"".data), Tok.starG isJsWhitespace,
   Tok.lit [':'], Tok.starG isJsWhitespace,
   Tok.lit ['"'], Tok.starG (fun c => !(c = '"')), Tok.lit ['"'],
   Tok.starG isJsWhitespace, Tok.lit [','], Tok.starG isJsWhitespace,
   Tok.lit ("\"publicKey\"".data), Tok.starG isJsWhitespace,
   Tok.lit [':'], Tok.starG isJsWhitespace,
   Tok.lit ['"'], Tok.starG (fun c => !(c = '"')), Tok.lit ['"'],
   Tok.starG isJsWhitespace, Tok.lit [','], Tok.starG isJsWhitespace,
   Tok.lit ("\"balance\"".data), Tok.starG isJsWhitespace,
   Tok.lit [':'], Tok.starG isJsWhitespace,
   Tok.plusG Char.isDigit, Tok.starG isJsWhitespace, Tok.lit ['\x7d']]

/-- C2 is false as stated: this input contains a substring matching the
spec's pattern (a space before the first colon, which `\s*` around colons
permits), yet `extractAccountAsJson` fails, because the code's regex
requires each key's quote to be followed immediately by the colon. -/
theorem extractAccountAsJson_spec_pattern_mismatch :
    (searchFrom specAccountToks
        ("\x7b\"accountId\" : \"a\", \"publicKey\": \"b\", \"balance\": 1\x7d").data).isSome
      = true ∧
    extractAccountAsJson
        "\x7b\"accountId\" : \"a\", \"publicKey\": \"b\", \"balance\": 1\x7d" =
      Except.error "No JSON block found in output" := by
  exact ⟨rfl, rfl⟩

/-- C2 (amended): `extractAccountAsJson` succeeds exactly when the input
contains a substring matching the code's own regex — keys followed
immediately by their colon with optional whitespace only after it, values
matched non-greedily by a dotAll `.*?` (so they may span newlines and even
contain quotes), the closing value quote followed immediately by the
comma — and on success it returns the leftmost such match verbatim (the
matched characters are a contiguous substring, no earlier start position
matches); `extractAccountAsJson ""` fails with `No JSON block found in
output`. -/
theorem extractAccountAsJson_characterization :
    (∀ s r : String, extractAccountAsJson s = Except.ok r ↔
      ∃ i rest, matchToks accountJsonToks (List.drop i s.data) = some (r.data, rest) ∧
        (∀ j, j < i → matchToks accountJsonToks (List.drop j s.data) = none) ∧
        List.take i s.data ++ r.data ++ rest = s.data) ∧
    extractAccountAsJson "" = Except.error "No JSON block found in output" := by
  refine ⟨fun s r => ⟨fun h => ?_, fun h => ?_⟩, rfl⟩
  · unfold extractAccountAsJson at h
    rcases hs : searchFrom accountJsonToks s.data with _ | q <;> rw [hs] at h
    · exact absurd h (by simp)
    · rcases q with ⟨i, c, rest⟩
      have hr : String.mk c = r := by
        have := h
        simp only [Except.ok.injEq] at this
        exact this
      have hrd : r.data = c := by rw [← hr]
      rcases searchFrom_sound hs with ⟨hmatch, hmin⟩
      refine ⟨i, rest, by rw [hrd]; exact hmatch, hmin, ?_⟩
      have hsum : c ++ rest = List.drop i s.data := matchToks_append hmatch
      calc List.take i s.data ++ r.data ++ rest
          = List.take i s.data ++ (c ++ rest) := by rw [hrd, List.append_assoc]
      _ = List.take i s.data ++ List.drop i s.data := by rw [hsum]
      _ = s.data := List.take_append_drop i s.data
  · rcases h with ⟨i, rest, hmatch, hmin, _⟩
    have hs : searchFrom accountJsonToks s.data = some (i, r.data, rest) :=
      searchFrom_complete hmatch hmin
    unfold extractAccountAsJson
    rw [hs]

end SoloAction

namespace SoloAction

/-! ### Claim C3: teardown with an empty cluster name -/

/-- C3 is false as stated: with an empty persisted `clusterName` the
teardown entry point emits NO event at all — in particular it does not log
the claimed "no cluster name" info message (post.ts's `if (clusterName)`
has no else branch).  The world is concrete and irrelevant: teardown
touches nothing. -/
theorem postEntry_empty_counterexample :
    (postEntry ""
        { inputs := fun _ => "", exec := fun _ _ _ => ExecRes.ok "",
          fileContents := fun _ => none } 0).2.2.filter isInfoEv = [] ∧
    (postEntry ""
        { inputs := fun _ => "", exec := fun _ _ _ => ExecRes.ok "",
          fileContents := fun _ => none } 0).1 = Except.ok () := ⟨rfl, rfl⟩

/-- C3 (amended): when `teardown` reads an empty `clusterName` from job
state it returns success immediately, invoking no subprocess and emitting
no log message at all (the source logs nothing in this case). -/
theorem postEntry_empty_noop :
    ∀ (w : World) (n : Nat), postEntry "" w n = (Except.ok (), n, []) := by
  intro w n
  rfl

/-! ### Claim C8: the port-forward supervisor never raises -/

/-- C8: for every service, port spec, namespace and world,
`portForwardIfExists` returns success (never raises); when the probe
succeeds it emits exactly the probe, one detached `kubectl port-forward`
spawn and two info lines (exactly one spawned process); when the probe
fails for any reason it emits the probe and one informational skip line —
zero port-forward spawns. -/
theorem portForwardIfExists_total_spec :
    ∀ (svc ps ns : String) (w : World) (n : Nat),
      (portForwardIfExists svc ps ns w n).1 = Except.ok () ∧
      (∀ out, w.exec n "kubectl" ["get", "svc", svc, "-n", ns] = ExecRes.ok out →
        (portForwardIfExists svc ps ns w n).2.2 =
          [Event.execEv "kubectl" ["get", "svc", svc, "-n", ns],
           Event.infoEv ("Service " ++ svc ++ " exists"),
           Event.spawnEv "kubectl" ["port-forward", "svc/" ++ svc, "-n", ns, ps],
           Event.infoEv ("Port-forward started for " ++ svc ++ " on " ++ ps)] ∧
        ((portForwardIfExists svc ps ns w n).2.2.filter isSpawnEv).length = 1) ∧
      (∀ m, w.exec n "kubectl" ["get", "svc", svc, "-n", ns] = ExecRes.err m →
        (portForwardIfExists svc ps ns w n).2.2 =
          [Event.execEv "kubectl" ["get", "svc", svc, "-n", ns],
           Event.infoEv ("Service " ++ svc ++ " not found or error occurred: " ++
             cmdFailedMsg "kubectl" ["get", "svc", svc, "-n", ns] m ++
             ", skipping port-forward")] ∧
        ((portForwardIfExists svc ps ns w n).2.2.filter isSpawnEv).length = 0) := by
  intro svc ps ns w n
  refine ⟨?_, fun out hout => ?_, fun m herr => ?_⟩
  · rw [portForwardIfExists_apply]
    cases hx : w.exec n "kubectl" ["get", "svc", svc, "-n", ns] <;> rfl
  · rw [portForwardIfExists_apply, hout]
    exact ⟨rfl, rfl⟩
  · rw [portForwardIfExists_apply, herr]
    exact ⟨rfl, rfl⟩

end SoloAction

namespace SoloAction

/-! ### Outcome classification of `createAccount` -/

/-- The success outputs are pure `setOutput` events. -/
theorem filter_accountOutputEvents (ty a p k : String) :
    (accountOutputEvents ty a p k).filter isSetOutputEv =
      accountOutputEvents ty a p k := by
  unfold accountOutputEvents
  split <;> rfl

/-- Every run of `createAccount` either throws having emitted no output,
or returns success having emitted either no output (the skip path) or
exactly the output block `accountOutputEvents` for some account id, public
key and trimmed private key. -/
theorem createAccount_cases (ty : String) (w : World) (n : Nat) :
    (∃ e, (createAccount ty w n).1 = Except.error e ∧
      (createAccount ty w n).2.2.filter isSetOutputEv = []) ∨
    ((createAccount ty w n).1 = Except.ok () ∧
      ((createAccount ty w n).2.2.filter isSetOutputEv = [] ∨
        ∃ a p k, (createAccount ty w n).2.2.filter isSetOutputEv =
          accountOutputEvents ty a p k)) := by
  rw [createAccount_apply]
  unfold createAccountRun
  cases hx0 : w.exec n "bash" ["-c", accountCreateCmd ty] with
  | err m => exact Or.inl ⟨_, rfl, rfl⟩
  | ok out0 =>
    dsimp only
    cases hfc : w.fileContents ("account_create_output_" ++ ty ++ ".txt") with
    | none => exact Or.inl ⟨_, rfl, rfl⟩
    | some content =>
      dsimp only
      cases hex : extractAccountAsJson content with
      | error m => exact Or.inl ⟨_, rfl, rfl⟩
      | ok j =>
        dsimp only
        cases hp : parseAccountJson j with
        | none => exact Or.inl ⟨_, rfl, rfl⟩
        | some v =>
          rcases v with ⟨aid, pk, bal⟩
          dsimp only
          by_cases hskip : (aid == "" || pk == "") = true
          · rw [if_pos hskip]
            exact Or.inr ⟨rfl, Or.inl rfl⟩
          · rw [if_neg hskip]
            cases hx1 : w.exec (n + 1) "bash" ["-c", privateKeyCmd aid "solo"] with
            | err m => exact Or.inl ⟨_, rfl, rfl⟩
            | ok out1 =>
              dsimp only
              cases hx2 : w.exec (n + 2) "solo" (accountUpdateArgs aid) with
              | err m => exact Or.inl ⟨_, rfl, rfl⟩
              | ok out2 =>
                refine Or.inr ⟨rfl, Or.inr ⟨aid, pk, out1.trim, ?_⟩⟩
                simp [List.filter_append, filter_accountOutputEvents, isSetOutputEv]

end SoloAction

namespace SoloAction

/-! ### Claim C6: legacy aliases mirror the ed25519 outputs -/

/-- C6: whenever `createAccount "ed25519"` returns success its outputs are
either empty (the incomplete-record skip path, covered by C9) or exactly
the `ed25519*` triple followed by the legacy `accountId` / `publicKey` /
`privateKey` aliases carrying the very same three values; and a successful
`createAccount "ecdsa"` never sets a legacy alias — every output it emits
is one of the three `ecdsa*` names. -/
theorem createAccount_legacy_aliases (w : World) (n : Nat) :
    ((createAccount "ed25519" w n).1 = Except.ok () →
      (createAccount "ed25519" w n).2.2.filter isSetOutputEv = [] ∨
      ∃ a p k, (createAccount "ed25519" w n).2.2.filter isSetOutputEv =
        [Event.setOutputEv "ed25519AccountId" a,
         Event.setOutputEv "ed25519PublicKey" p,
         Event.setOutputEv "ed25519PrivateKey" k,
         Event.setOutputEv "accountId" a,
         Event.setOutputEv "publicKey" p,
         Event.setOutputEv "privateKey" k]) ∧
    ((createAccount "ecdsa" w n).1 = Except.ok () →
      ∀ k v, Event.setOutputEv k v ∈ (createAccount "ecdsa" w n).2.2 →
        k = "ecdsaAccountId" ∨ k = "ecdsaPublicKey" ∨ k = "ecdsaPrivateKey") := by
  constructor
  · intro hok
    rcases createAccount_cases "ed25519" w n with ⟨e, he, _⟩ | ⟨_, houts⟩
    · rw [hok] at he
      exact absurd he (by simp)
    · rcases houts with houts | ⟨a, p, k, houts⟩
      · exact Or.inl houts
      · refine Or.inr ⟨a, p, k, ?_⟩
        rw [houts]
        rfl
  · intro hok k v hmem
    rcases createAccount_cases "ecdsa" w n with ⟨e, he, _⟩ | ⟨_, houts⟩
    · rw [hok] at he
      exact absurd he (by simp)
    · have hmemf : Event.setOutputEv k v ∈
          (createAccount "ecdsa" w n).2.2.filter isSetOutputEv :=
        List.mem_filter.mpr ⟨hmem, rfl⟩
      rcases houts with houts | ⟨a, p, pk, houts⟩
      · rw [houts] at hmemf
        exact absurd hmemf (by simp)
      · rw [houts] at hmemf
        have : Event.setOutputEv k v ∈
            [Event.setOutputEv "ecdsaAccountId" a,
             Event.setOutputEv "ecdsaPublicKey" p,
             Event.setOutputEv "ecdsaPrivateKey" pk] := hmemf
        simp only [List.mem_cons, List.not_mem_nil, or_false] at this
        rcases this with h | h | h
        · injection h with h1 h2
          exact Or.inl h1
        · injection h with h1 h2
          exact Or.inr (Or.inl h1)
        · injection h with h1 h2
          exact Or.inr (Or.inr h1)

end SoloAction

namespace SoloAction

/-! ### Claim C9: incomplete account records are skipped -/

/-- C9: when the account record parsed from the CLI output file lacks
`accountId` or `publicKey` (either is the empty string, which is falsy in
the source's `!accountId || !publicKey` check), `createAccount` returns
success having emitted only the account-creation subprocess and the skip
notice: no output is set, no further subprocess runs, and the pipeline is
not aborted. -/
theorem createAccount_incomplete_skips (w : World) (n : Nat)
    (ty c j a p : String) (b : Nat)
    (hout : ∃ out, w.exec n "bash" ["-c", accountCreateCmd ty] = ExecRes.ok out)
    (hfc : w.fileContents ("account_create_output_" ++ ty ++ ".txt") = some c)
    (hex : extractAccountAsJson c = Except.ok j)
    (hp : parseAccountJson j = some (a, p, b))
    (hmiss : a = "" ∨ p = "") :
    (createAccount ty w n).1 = Except.ok () ∧
    (createAccount ty w n).2.2 =
      [Event.execEv "bash" ["-c", accountCreateCmd ty],
       Event.infoEv "Account ID or public key not found, skipping account creation"] := by
  rcases hout with ⟨out, hout⟩
  have hskip : (a == "" || p == "") = true := by
    rcases hmiss with h | h <;> simp [h]
  rw [createAccount_apply]
  unfold createAccountRun
  rw [hout]
  dsimp only
  rw [hfc]
  dsimp only
  rw [hex]
  dsimp only
  rw [hp]
  dsimp only
  rw [if_pos hskip]
  exact ⟨rfl, rfl⟩

/-- C9 witness: the boundary record of the spec (`accountId` = `0.0.1234`,
empty `publicKey`, zero balance) is extracted and parsed, and the step
skips with the notice, leaving only the creation subprocess in the trace. -/
theorem createAccount_incomplete_skips_witness :
    (createAccount "ed25519"
        { inputs := fun _ => "",
          exec := fun _ _ _ => ExecRes.ok "",
          fileContents := fun _ =>
            some "\x7b\"accountId\":\"0.0.1234\",\"publicKey\":\"\",\"balance\":0\x7d" } 0).1 =
      Except.ok () ∧
    (createAccount "ed25519"
        { inputs := fun _ => "",
          exec := fun _ _ _ => ExecRes.ok "",
          fileContents := fun _ =>
            some "\x7b\"accountId\":\"0.0.1234\",\"publicKey\":\"\",\"balance\":0\x7d" } 0).2.2 =
      [Event.execEv "bash" ["-c", accountCreateCmd "ed25519"],
       Event.infoEv "Account ID or public key not found, skipping account creation"] :=
  createAccount_incomplete_skips
    { inputs := fun _ => "",
      exec := fun _ _ _ => ExecRes.ok "",
      fileContents := fun _ =>
        some "\x7b\"accountId\":\"0.0.1234\",\"publicKey\":\"\",\"balance\":0\x7d" } 0
    "ed25519" "\x7b\"accountId\":\"0.0.1234\",\"publicKey\":\"\",\"balance\":0\x7d"
    "\x7b\"accountId\":\"0.0.1234\",\"publicKey\":\"\",\"balance\":0\x7d"
    "0.0.1234" "" 0 ⟨"", rfl⟩ rfl rfl rfl (Or.inr rfl)

/-! ### Claim C10: `createAccount` is output-atomic -/

/-- C10: `createAccount` is output-atomic.  First conjunct: whenever it
ends in an error, its trace contains no `setOutput` event at all (neither
the requested type's outputs nor the legacy aliases).  The remaining
conjuncts show that a failure of EVERY external command of the
sub-pipeline propagates as an error: the `solo account create` shell
redirect, the output-file read, the account-JSON extraction, the
`JSON.parse` of the extracted match, the private-key `kubectl get secret`
shell pipeline, and the final `solo account update`.  Together: output
emission happens only after every command in the sub-pipeline has
succeeded. -/
theorem createAccount_output_atomic (w : World) (n : Nat) (ty : String) :
    (∀ e, (createAccount ty w n).1 = Except.error e →
      (createAccount ty w n).2.2.filter isSetOutputEv = []) ∧
    (∀ m, w.exec n "bash" ["-c", accountCreateCmd ty] = ExecRes.err m →
      ∃ e, (createAccount ty w n).1 = Except.error e) ∧
    (∀ out, w.exec n "bash" ["-c", accountCreateCmd ty] = ExecRes.ok out →
      w.fileContents ("account_create_output_" ++ ty ++ ".txt") = none →
      ∃ e, (createAccount ty w n).1 = Except.error e) ∧
    (∀ out c m, w.exec n "bash" ["-c", accountCreateCmd ty] = ExecRes.ok out →
      w.fileContents ("account_create_output_" ++ ty ++ ".txt") = some c →
      extractAccountAsJson c = Except.error m →
      ∃ e, (createAccount ty w n).1 = Except.error e) ∧
    (∀ out c j, w.exec n "bash" ["-c", accountCreateCmd ty] = ExecRes.ok out →
      w.fileContents ("account_create_output_" ++ ty ++ ".txt") = some c →
      extractAccountAsJson c = Except.ok j →
      parseAccountJson j = none →
      ∃ e, (createAccount ty w n).1 = Except.error e) ∧
    (∀ out c j a p b m,
      w.exec n "bash" ["-c", accountCreateCmd ty] = ExecRes.ok out →
      w.fileContents ("account_create_output_" ++ ty ++ ".txt") = some c →
      extractAccountAsJson c = Except.ok j →
      parseAccountJson j = some (a, p, b) → a ≠ "" → p ≠ "" →
      w.exec (n + 1) "bash" ["-c", privateKeyCmd a "solo"] = ExecRes.err m →
      ∃ e, (createAccount ty w n).1 = Except.error e) ∧
    (∀ out c j a p b out1 m,
      w.exec n "bash" ["-c", accountCreateCmd ty] = ExecRes.ok out →
      w.fileContents ("account_create_output_" ++ ty ++ ".txt") = some c →
      extractAccountAsJson c = Except.ok j →
      parseAccountJson j = some (a, p, b) → a ≠ "" → p ≠ "" →
      w.exec (n + 1) "bash" ["-c", privateKeyCmd a "solo"] = ExecRes.ok out1 →
      w.exec (n + 2) "solo" (accountUpdateArgs a) = ExecRes.err m →
      ∃ e, (createAccount ty w n).1 = Except.error e) := by
  refine ⟨?_, ?_, ?_, ?_, ?_, ?_, ?_⟩
  · intro e he
    rcases createAccount_cases ty w n with ⟨e2, _, hempty⟩ | ⟨hok, _⟩
    · exact hempty
    · rw [hok] at he
      exact absurd he (by simp)
  · intro m hm
    rw [createAccount_apply]
    unfold createAccountRun
    rw [hm]
    exact ⟨_, rfl⟩
  · intro out hout hfc
    rw [createAccount_apply]
    unfold createAccountRun
    rw [hout]
    dsimp only
    rw [hfc]
    exact ⟨_, rfl⟩
  · intro out c m hout hfc hex
    rw [createAccount_apply]
    unfold createAccountRun
    rw [hout]
    dsimp only
    rw [hfc]
    dsimp only
    rw [hex]
    exact ⟨_, rfl⟩
  · intro out c j hout hfc hex hp
    rw [createAccount_apply]
    unfold createAccountRun
    rw [hout]
    dsimp only
    rw [hfc]
    dsimp only
    rw [hex]
    dsimp only
    rw [hp]
    exact ⟨_, rfl⟩
  · intro out c j a p b m hout hfc hex hp ha hb hx1
    have hsk : ¬((a == "" || p == "") = true) := by simp [ha, hb]
    rw [createAccount_apply]
    unfold createAccountRun
    rw [hout]
    dsimp only
    rw [hfc]
    dsimp only
    rw [hex]
    dsimp only
    rw [hp]
    dsimp only
    rw [if_neg hsk]
    rw [hx1]
    exact ⟨_, rfl⟩
  · intro out c j a p b out1 m hout hfc hex hp ha hb hx1 hx2
    have hsk : ¬((a == "" || p == "") = true) := by simp [ha, hb]
    rw [createAccount_apply]
    unfold createAccountRun
    rw [hout]
    dsimp only
    rw [hfc]
    dsimp only
    rw [hex]
    dsimp only
    rw [hp]
    dsimp only
    rw [if_neg hsk]
    rw [hx1]
    dsimp only
    rw [hx2]
    exact ⟨_, rfl⟩

end SoloAction

namespace SoloAction

/-! ### Claim C4: the minimal run's invocation sequence -/

/-- C4: with inputs `hieroVersion = v0.58.10`, `installMirrorNode = false`,
`installRelay = false`, in a world where every external command succeeds
(arbitrary stdout `f i` for the i-th command) and each account-creation
output file holds a well-formed complete record, the subprocess events of
`run` (awaited commands and detached spawns, in order) are exactly the
claimed sequence: the ten network steps, the diagnostic service listing,
the HAProxy probe and port-forward, then the three ECDSA account commands
followed by the three ED25519 account commands. -/
theorem run_minimal_sequence (f : Nat → String) :
    ((run
        { inputs := fun name =>
            if name = "hieroVersion" then "v0.58.10"
            else if name = "installMirrorNode" then "false"
            else if name = "installRelay" then "false" else "",
          exec := fun i _ _ => ExecRes.ok (f i),
          fileContents := fun path =>
            if path = "account_create_output_ecdsa.txt" then
              some "\x7b\"accountId\": \"0.0.1001\", \"publicKey\": \"pk1\", \"balance\": 100\x7d"
            else if path = "account_create_output_ed25519.txt" then
              some "\x7b\"accountId\": \"0.0.1002\", \"publicKey\": \"pk2\", \"balance\": 100\x7d"
            else none } 0).2.2).filter isProcEv =
      [Event.execEv "kind" ["create", "cluster", "-n", "solo-e2e"],
       Event.execEv "solo" ["init"],
       Event.execEv "solo" ["cluster-ref", "connect", "--cluster-ref", "kind-solo-e2e",
         "--context", "kind-solo-e2e"],
       Event.execEv "solo" ["deployment", "create", "-n", "solo",
         "--deployment", "solo-deployment"],
       Event.execEv "solo" ["deployment", "add-cluster", "--deployment", "solo-deployment",
         "--cluster-ref", "kind-solo-e2e", "--num-consensus-nodes", "1"],
       Event.execEv "solo" ["node", "keys", "--gossip-keys", "--tls-keys", "-i", "node1",
         "--deployment", "solo-deployment"],
       Event.execEv "solo" ["cluster-ref", "setup", "-s", "solo-e2e"],
       Event.execEv "solo" ["network", "deploy", "-i", "node1",
         "--deployment", "solo-deployment"],
       Event.execEv "solo" ["node", "setup", "-i", "node1", "--deployment",
         "solo-deployment", "-t", "v0.58.10", "--quiet-mode"],
       Event.execEv "solo" ["node", "start", "-i", "node1",
         "--deployment", "solo-deployment"],
       Event.execEv "kubectl" ["get", "svc", "-n", "solo"],
       Event.execEv "kubectl" ["get", "svc", "haproxy-node1-svc", "-n", "solo"],
       Event.spawnEv "kubectl" ["port-forward", "svc/haproxy-node1-svc", "-n", "solo",
         "50211:50211"],
       Event.execEv "bash" ["-c",
         "solo account create --generate-ecdsa-key --deployment \"solo-deployment\" > account_create_output_ecdsa.txt"],
       Event.execEv "bash" ["-c",
         "kubectl get secret account-key-0.0.1001 -n solo -o jsonpath=\x27\x7b.data.privateKey\x7d\x27 | base64 -d | xargs"],
       Event.execEv "solo" ["account", "update", "--account-id", "0.0.1001",
         "--hbar-amount", "10000000", "--deployment", "solo-deployment"],
       Event.execEv "bash" ["-c",
         "solo account create  --deployment \"solo-deployment\" > account_create_output_ed25519.txt"],
       Event.execEv "bash" ["-c",
         "kubectl get secret account-key-0.0.1002 -n solo -o jsonpath=\x27\x7b.data.privateKey\x7d\x27 | base64 -d | xargs"],
       Event.execEv "solo" ["account", "update", "--account-id", "0.0.1002",
         "--hbar-amount", "10000000", "--deployment", "solo-deployment"]] := rfl

end SoloAction

namespace SoloAction

/-! ### Claim C7: relay deployment failure is tolerated -/

/-- C7 is false as stated: in the relay-failure scenario (inputs of the
minimal run plus `installRelay = true`, `solo relay deploy` exiting
non-zero, everything else succeeding) the failure is logged through the
`info` channel, not the `warning` channel — the run's trace contains no
warning event at all, even though the relay-failure notice is present, the
pipeline proceeded to account creation and the job was not failed. -/
theorem deployRelay_failure_counterexample :
    ((run
        { inputs := fun name =>
            if name = "hieroVersion" then "v0.58.10"
            else if name = "installRelay" then "true"
            else if name = "relayPort" then "7546" else "",
          exec := fun i _ _ =>
            if i = 12 then ExecRes.err "exit code 1" else ExecRes.ok "",
          fileContents := fun path =>
            if path = "account_create_output_ecdsa.txt" then
              some "\x7b\"accountId\": \"0.0.1001\", \"publicKey\": \"pk1\", \"balance\": 100\x7d"
            else if path = "account_create_output_ed25519.txt" then
              some "\x7b\"accountId\": \"0.0.1002\", \"publicKey\": \"pk2\", \"balance\": 100\x7d"
            else none } 0).2.2).filter isWarningEv = [] ∧
    Event.infoEv ("Relay service deployment failed: Command failed: solo relay deploy " ++
        "-i node1 --deployment solo-deployment - exit code 1, continuing...") ∈
      (run
        { inputs := fun name =>
            if name = "hieroVersion" then "v0.58.10"
            else if name = "installRelay" then "true"
            else if name = "relayPort" then "7546" else "",
          exec := fun i _ _ =>
            if i = 12 then ExecRes.err "exit code 1" else ExecRes.ok "",
          fileContents := fun path =>
            if path = "account_create_output_ecdsa.txt" then
              some "\x7b\"accountId\": \"0.0.1001\", \"publicKey\": \"pk1\", \"balance\": 100\x7d"
            else if path = "account_create_output_ed25519.txt" then
              some "\x7b\"accountId\": \"0.0.1002\", \"publicKey\": \"pk2\", \"balance\": 100\x7d"
            else none } 0).2.2 ∧
    ((run
        { inputs := fun name =>
            if name = "hieroVersion" then "v0.58.10"
            else if name = "installRelay" then "true"
            else if name = "relayPort" then "7546" else "",
          exec := fun i _ _ =>
            if i = 12 then ExecRes.err "exit code 1" else ExecRes.ok "",
          fileContents := fun path =>
            if path = "account_create_output_ecdsa.txt" then
              some "\x7b\"accountId\": \"0.0.1001\", \"publicKey\": \"pk1\", \"balance\": 100\x7d"
            else if path = "account_create_output_ed25519.txt" then
              some "\x7b\"accountId\": \"0.0.1002\", \"publicKey\": \"pk2\", \"balance\": 100\x7d"
            else none } 0).2.2).filter isSetFailedEv = [] := by
  refine ⟨rfl, ?_, rfl⟩
  decide

/-- C7 (amended): when `installRelay = true` and `solo relay deploy` exits
non-zero (all other commands succeeding, with arbitrary stdout `f i`), the
failure is swallowed with an `info` line (not a warning: the warning
channel stays empty), the relay's own service listing and port-forward are
skipped, the pipeline proceeds through both account creations, and the job
is not marked failed. -/
theorem run_relay_failure_tolerated (f : Nat → String) :
    ((run
        { inputs := fun name =>
            if name = "hieroVersion" then "v0.58.10"
            else if name = "installRelay" then "true"
            else if name = "relayPort" then "7546" else "",
          exec := fun i _ _ =>
            if i = 12 then ExecRes.err "exit code 1" else ExecRes.ok (f i),
          fileContents := fun path =>
            if path = "account_create_output_ecdsa.txt" then
              some "\x7b\"accountId\": \"0.0.1001\", \"publicKey\": \"pk1\", \"balance\": 100\x7d"
            else if path = "account_create_output_ed25519.txt" then
              some "\x7b\"accountId\": \"0.0.1002\", \"publicKey\": \"pk2\", \"balance\": 100\x7d"
            else none } 0).2.2).filter isWarningEv = [] ∧
    ((run
        { inputs := fun name =>
            if name = "hieroVersion" then "v0.58.10"
            else if name = "installRelay" then "true"
            else if name = "relayPort" then "7546" else "",
          exec := fun i _ _ =>
            if i = 12 then ExecRes.err "exit code 1" else ExecRes.ok (f i),
          fileContents := fun path =>
            if path = "account_create_output_ecdsa.txt" then
              some "\x7b\"accountId\": \"0.0.1001\", \"publicKey\": \"pk1\", \"balance\": 100\x7d"
            else if path = "account_create_output_ed25519.txt" then
              some "\x7b\"accountId\": \"0.0.1002\", \"publicKey\": \"pk2\", \"balance\": 100\x7d"
            else none } 0).2.2).filter isInfoEv =
      [Event.infoEv "Service haproxy-node1-svc exists",
       Event.infoEv "Port-forward started for haproxy-node1-svc on 50211:50211",
       Event.infoEv ("Relay service deployment failed: Command failed: solo relay deploy " ++
         "-i node1 --deployment solo-deployment - exit code 1, continuing...")] ∧
    ((run
        { inputs := fun name =>
            if name = "hieroVersion" then "v0.58.10"
            else if name = "installRelay" then "true"
            else if name = "relayPort" then "7546" else "",
          exec := fun i _ _ =>
            if i = 12 then ExecRes.err "exit code 1" else ExecRes.ok (f i),
          fileContents := fun path =>
            if path = "account_create_output_ecdsa.txt" then
              some "\x7b\"accountId\": \"0.0.1001\", \"publicKey\": \"pk1\", \"balance\": 100\x7d"
            else if path = "account_create_output_ed25519.txt" then
              some "\x7b\"accountId\": \"0.0.1002\", \"publicKey\": \"pk2\", \"balance\": 100\x7d"
            else none } 0).2.2).filter isSetFailedEv = [] ∧
    ((run
        { inputs := fun name =>
            if name = "hieroVersion" then "v0.58.10"
            else if name = "installRelay" then "true"
            else if name = "relayPort" then "7546" else "",
          exec := fun i _ _ =>
            if i = 12 then ExecRes.err "exit code 1" else ExecRes.ok (f i),
          fileContents := fun path =>
            if path = "account_create_output_ecdsa.txt" then
              some "\x7b\"accountId\": \"0.0.1001\", \"publicKey\": \"pk1\", \"balance\": 100\x7d"
            else if path = "account_create_output_ed25519.txt" then
              some "\x7b\"accountId\": \"0.0.1002\", \"publicKey\": \"pk2\", \"balance\": 100\x7d"
            else none } 0).2.2).filter isProcEv =
      [Event.execEv "kind" ["create", "cluster", "-n", "solo-e2e"],
       Event.execEv "solo" ["init"],
       Event.execEv "solo" ["cluster-ref", "connect", "--cluster-ref", "kind-solo-e2e",
         "--context", "kind-solo-e2e"],
       Event.execEv "solo" ["deployment", "create", "-n", "solo",
         "--deployment", "solo-deployment"],
       Event.execEv "solo" ["deployment", "add-cluster", "--deployment", "solo-deployment",
         "--cluster-ref", "kind-solo-e2e", "--num-consensus-nodes", "1"],
       Event.execEv "solo" ["node", "keys", "--gossip-keys", "--tls-keys", "-i", "node1",
         "--deployment", "solo-deployment"],
       Event.execEv "solo" ["cluster-ref", "setup", "-s", "solo-e2e"],
       Event.execEv "solo" ["network", "deploy", "-i", "node1",
         "--deployment", "solo-deployment"],
       Event.execEv "solo" ["node", "setup", "-i", "node1", "--deployment",
         "solo-deployment", "-t", "v0.58.10", "--quiet-mode"],
       Event.execEv "solo" ["node", "start", "-i", "node1",
         "--deployment", "solo-deployment"],
       Event.execEv "kubectl" ["get", "svc", "-n", "solo"],
       Event.execEv "kubectl" ["get", "svc", "haproxy-node1-svc", "-n", "solo"],
       Event.spawnEv "kubectl" ["port-forward", "svc/haproxy-node1-svc", "-n", "solo",
         "50211:50211"],
       Event.execEv "solo" ["relay", "deploy", "-i", "node1",
         "--deployment", "solo-deployment"],
       Event.execEv "bash" ["-c",
         "solo account create --generate-ecdsa-key --deployment \"solo-deployment\" > account_create_output_ecdsa.txt"],
       Event.execEv "bash" ["-c",
         "kubectl get secret account-key-0.0.1001 -n solo -o jsonpath=\x27\x7b.data.privateKey\x7d\x27 | base64 -d | xargs"],
       Event.execEv "solo" ["account", "update", "--account-id", "0.0.1001",
         "--hbar-amount", "10000000", "--deployment", "solo-deployment"],
       Event.execEv "bash" ["-c",
         "solo account create  --deployment \"solo-deployment\" > account_create_output_ed25519.txt"],
       Event.execEv "bash" ["-c",
         "kubectl get secret account-key-0.0.1002 -n solo -o jsonpath=\x27\x7b.data.privateKey\x7d\x27 | base64 -d | xargs"],
       Event.execEv "solo" ["account", "update", "--account-id", "0.0.1002",
         "--hbar-amount", "10000000", "--deployment", "solo-deployment"]] :=
  ⟨rfl, rfl, rfl, rfl⟩

end SoloAction

namespace SoloAction

/-! ### Claim C5: the persisted state and the teardown contract -/

/-- C5: (1) the only state `provision` can ever persist is
`clusterName = solo-e2e` — every `saveState` event of any run carries that
key and value (and it is written before any subprocess starts, as the
trace-order lemmas for C4 show); (2) for any non-empty persisted name `X`,
`teardown` invokes `kind delete cluster --name X` exactly once — whatever
the world does — never marks the job failed, returns success, and
downgrades a failed delete to a single warning. -/
theorem provision_state_teardown_invariant :
    (∀ (w : World) (k v : String), Event.saveStateEv k v ∈ runTrace w →
      k = "clusterName" ∧ v = "solo-e2e") ∧
    (∀ (cn : String) (w : World) (n : Nat), cn ≠ "" →
      (postEntry cn w n).2.2.filter isExecEv =
        [Event.execEv ("kind delete cluster --name " ++ cn) []] ∧
      (postEntry cn w n).2.2.filter isSetFailedEv = [] ∧
      (postEntry cn w n).1 = Except.ok () ∧
      (∀ m, w.exec n ("kind delete cluster --name " ++ cn) [] = ExecRes.err m →
        (postEntry cn w n).2.2 =
          [Event.execEv ("kind delete cluster --name " ++ cn) [],
           Event.warningEv ("Cleanup failed: Error: " ++ m)])) := by
  constructor
  · intro w k v hmem
    have hP : EmitsOnly
        (fun e => ∀ k2 v2, e = Event.saveStateEv k2 v2 →
          k2 = "clusterName" ∧ v2 = "solo-e2e") run := by
      apply emitsOnly_run
      · intro c a k2 v2 he
        exact Event.noConfusion he
      · intro c a k2 v2 he
        exact Event.noConfusion he
      · intro m k2 v2 he
        exact Event.noConfusion he
      · intro k0 v0 k2 v2 he
        exact Event.noConfusion he
      · intro k2 v2 he
        injection he with h1 h2
        exact ⟨h1.symm, h2.symm⟩
      · intro m k2 v2 he
        exact Event.noConfusion he
    exact hP w 0 _ hmem k v rfl
  · intro cn w n hcn
    have hbeq : (cn == "") = false := by simp [hcn]
    cases hx : w.exec n ("kind delete cluster --name " ++ cn) [] with
    | ok out =>
      refine ⟨?_, ?_, ?_, ?_⟩ <;>
        simp [postEntry, cleanup, tryCatchM, bind_eq, M.bind, M.pure, execM, emit,
          safeInfo, isExecEv, isSetFailedEv, hbeq, hx]
    | err m =>
      refine ⟨?_, ?_, ?_, ?_⟩ <;>
        simp [postEntry, cleanup, tryCatchM, bind_eq, M.bind, M.pure, execM, emit,
          safeInfo, isExecEv, isSetFailedEv, hbeq, hx]

end SoloAction

namespace SoloAction

/-! ### Claim C1: an empty `hieroVersion` does not make `provision` a no-op -/

/-- Whatever the world, `createAccount`'s first emitted event is the
`solo account create` shell invocation: the account step spawns a
subprocess unconditionally. -/
theorem createAccount_head (ty : String) (w : World) (n : Nat) :
    ∃ t2, (createAccount ty w n).2.2 =
      Event.execEv "bash" ["-c", accountCreateCmd ty] :: t2 := by
  rw [createAccount_apply]
  unfold createAccountRun
  cases hx0 : w.exec n "bash" ["-c", accountCreateCmd ty] with
  | err m => exact ⟨_, rfl⟩
  | ok out0 =>
    dsimp only
    cases hfc : w.fileContents ("account_create_output_" ++ ty ++ ".txt") with
    | none => exact ⟨_, rfl⟩
    | some content =>
      dsimp only
      cases hex : extractAccountAsJson content with
      | error m => exact ⟨_, rfl⟩
      | ok j =>
        dsimp only
        cases hp : parseAccountJson j with
        | none => exact ⟨_, rfl⟩
        | some v =>
          rcases v with ⟨aid, pk, bal⟩
          dsimp only
          by_cases hskip : (aid == "" || pk == "") = true
          · rw [if_pos hskip]
            exact ⟨_, rfl⟩
          · rw [if_neg hskip]
            cases hx1 : w.exec (n + 1) "bash" ["-c", privateKeyCmd aid "solo"] with
            | err m => exact ⟨_, rfl⟩
            | ok out1 =>
              dsimp only
              cases hx2 : w.exec (n + 2) "solo" (accountUpdateArgs aid) with
              | err m => exact ⟨_, rfl⟩
              | ok out2 => exact ⟨_, rfl⟩

/-- C1 is false as stated: with `hieroVersion` empty (and every other
input empty too), `provision` still spawns a subprocess — the trace of
`run` contains the ECDSA `solo account create` shell invocation, because
`run` calls `createAccount` unconditionally after the skipped network
deployment. -/
theorem provision_empty_version_counterexample :
    Event.execEv "bash" ["-c", accountCreateCmd "ecdsa"] ∈
      runTrace
        { inputs := fun _ => "", exec := fun _ _ _ => ExecRes.ok "",
          fileContents := fun _ => none } := by
  decide

/-- C1 (amended): with an empty `hieroVersion` input no state is persisted
and `deploySoloTestNetwork` itself is a pure skip (it only logs the skip
line), and `teardown` with the resulting empty state is a no-op — but
`provision` as a whole is NOT subprocess-free: when the mirror-node and
relay stages are also disabled, `run` still reaches account creation and
spawns the ECDSA `solo account create` shell command. -/
theorem provision_empty_version_behavior (w : World)
    (h1 : w.inputs "hieroVersion" = "")
    (h2 : w.inputs "installMirrorNode" ≠ "true")
    (h3 : w.inputs "installRelay" ≠ "true") :
    (∀ k v, Event.saveStateEv k v ∉ runTrace w) ∧
    (∀ n, deploySoloTestNetwork w n =
      (Except.ok (), n,
        [Event.infoEv "Hiero version not found, skipping deployment"])) ∧
    Event.execEv "bash" ["-c", accountCreateCmd "ecdsa"] ∈ runTrace w ∧
    (∀ (w2 : World) (n : Nat), postEntry "" w2 n = (Except.ok (), n, [])) := by
  rcases hca : (createAccount "ecdsa" >>= fun _ => createAccount "ed25519") w 0
    with ⟨r, n1, t⟩
  have hbody : (deploySoloTestNetwork >>= fun _ => deployMirrorNode >>= fun _ =>
      deployRelay >>= fun _ => createAccount "ecdsa" >>= fun _ =>
      createAccount "ed25519") w 0
      = (r, n1, Event.infoEv "Hiero version not found, skipping deployment" :: t) := by
    rw [bind_eq, M.bind_apply, deploySoloTestNetwork_skip w 0 h1]
    dsimp only
    rw [bind_eq, M.bind_apply, deployMirrorNode_skip w 0 h2]
    dsimp only
    rw [bind_eq, M.bind_apply, deployRelay_skip w 0 h3]
    dsimp only
    rw [bind_eq] at hca
    rw [hca]
    simp
  have hrun : runTrace w =
      Event.infoEv "Hiero version not found, skipping deployment" ::
        (t ++ (match r with
          | Except.ok _ => []
          | Except.error e =>
            [Event.setFailedEv ("Script execution failed: " ++ e)])) := by
    unfold runTrace run tryCatchM
    simp only [hbody]
    cases r <;> simp [emit]
  have hhead : ∃ rest, t = Event.execEv "bash" ["-c", accountCreateCmd "ecdsa"] :: rest := by
    rcases hca1 : createAccount "ecdsa" w 0 with ⟨r1, m1, t1⟩
    rcases createAccount_head "ecdsa" w 0 with ⟨t2, ht2⟩
    rw [hca1] at ht2
    dsimp only at ht2
    subst ht2
    rw [bind_eq] at hca
    rw [M.bind_apply, hca1] at hca
    cases r1 with
    | ok a =>
      dsimp only at hca
      rcases hca2 : createAccount "ed25519" w m1 with ⟨r2, m2, t3⟩
      rw [hca2] at hca
      dsimp only at hca
      have : (Event.execEv "bash" ["-c", accountCreateCmd "ecdsa"] :: t2) ++ t3 = t :=
        congrArg (fun p => p.2.2) hca
      exact ⟨t2 ++ t3, by rw [← this]; rfl⟩
    | error e =>
      dsimp only at hca
      have : Event.execEv "bash" ["-c", accountCreateCmd "ecdsa"] :: t2 = t :=
        congrArg (fun p => p.2.2) hca
      exact ⟨t2, this.symm⟩
  refine ⟨?_, fun n => deploySoloTestNetwork_skip w n h1, ?_, fun w2 n => rfl⟩
  · intro k v hmem
    rw [hrun] at hmem
    rcases List.mem_cons.mp hmem with he | hmem2
    · exact Event.noConfusion he
    rcases List.mem_append.mp hmem2 with ht | htail
    · have hP : EmitsOnly (fun e => isSaveStateEv e = false)
          (createAccount "ecdsa" >>= fun _ => createAccount "ed25519") := by
        refine emitsOnly_bind (emitsOnly_createAccount ?_ ?_ ?_ _)
          (fun _ => emitsOnly_createAccount ?_ ?_ ?_ _) <;> intros <;> rfl
      have := hP w 0 _ (by rw [hca]; exact ht)
      simp [isSaveStateEv] at this
    · cases r with
      | ok a => exact absurd htail (by simp)
      | error e =>
        simp only [List.mem_singleton] at htail
        exact Event.noConfusion htail
  · rw [hrun]
    rcases hhead with ⟨rest, hrest⟩
    have hmem_t : Event.execEv "bash" ["-c", accountCreateCmd "ecdsa"] ∈ t := by
      rw [hrest]
      exact List.mem_cons_self _ _
    exact List.mem_cons_of_mem _ (List.mem_append_left _ hmem_t)

end SoloAction

namespace SoloAction

/-- C1 witness: the amended behavior at a concrete world (all inputs empty,
every command succeeding, no files): the ECDSA account-creation subprocess
is still spawned. -/
theorem provision_empty_version_behavior_witness :
    Event.execEv "bash" ["-c", accountCreateCmd "ecdsa"] ∈
      runTrace
        { inputs := fun _ => "", exec := fun _ _ _ => ExecRes.ok "",
          fileContents := fun _ => none } :=
  (provision_empty_version_behavior
    { inputs := fun _ => "", exec := fun _ _ _ => ExecRes.ok "",
      fileContents := fun _ => none } rfl (by decide) (by decide)).2.2.1

end SoloAction
